import Mathlib

/-!
Verification development for the CRM assistant subsystem: a shallow embedding of
the retrieval engine (`src/lib/retrieval.ts`), the embedding pipeline
(`src/lib/embeddings.ts`), the conversation window manager
(`conversation-manager`), the response parser / payload validator
(`assistant-schemas`), and the action state machine (assistant server actions),
together with theorems settling the frozen specification claims.

Conventions of the embedding:
- Database timestamps are modelled as integer epoch seconds; scores are `Rat`.
- The pgvector cosine-distance operator and the embedding provider are external
  collaborators, so they enter as explicit function/oracle parameters.
- JavaScript truthiness on optional strings (`a || b || undefined`) is modelled
  by `jsOrStr`/`strTruthy` (empty string and null are both falsy).
- Prisma `findFirst`/`findMany` become `List.find?`/`List.filter` plus `take`.
- The untyped `metadata: Record<string, unknown>` decoration on entity details
  is not modelled; no claim refers to it.
-/

namespace Crm

inductive SourceType
  | COMPANY | CONTACT | DEAL | TASK | NOTE
  deriving DecidableEq, Repr

inductive DealStage
  | LEAD | QUALIFIED | PROPOSAL | NEGOTIATION | WON | LOST
  deriving DecidableEq, Repr

inductive TaskStatus
  | OPEN | DONE
  deriving DecidableEq, Repr

inductive RelatedType
  | CONTACT | COMPANY | DEAL | NONE
  deriving DecidableEq, Repr

inductive MessageRole
  | USER | ASSISTANT | SYSTEM
  deriving DecidableEq, Repr

inductive ActionStatus
  | PROPOSED | CONFIRMED | CANCELLED | EXECUTED | FAILED
  deriving DecidableEq, Repr

inductive ActionType
  | CREATE_TASK | CREATE_NOTE | CREATE_DEAL | CREATE_CONTACT | CREATE_COMPANY
  | UPDATE_DEAL_STAGE | UPDATE_CONTACT | UPDATE_COMPANY | UPDATE_TASK
  | DELETE_TASK | DELETE_NOTE | DELETE_DEAL | DELETE_CONTACT | DELETE_COMPANY
  | BULK_UPDATE_DEALS | BULK_UPDATE_TASKS | BULK_UPDATE_CONTACTS
  deriving DecidableEq, Repr

def stageName : DealStage → String
  | .LEAD => "LEAD"
  | .QUALIFIED => "QUALIFIED"
  | .PROPOSAL => "PROPOSAL"
  | .NEGOTIATION => "NEGOTIATION"
  | .WON => "WON"
  | .LOST => "LOST"

def taskStatusName : TaskStatus → String
  | .OPEN => "OPEN"
  | .DONE => "DONE"

/-- Business records, fields as in `prisma/migrations` (dates as epoch seconds). -/
structure Company where
  id : String
  name : String
  website : Option String
  phone : Option String
  address : Option String
  ownerUserId : String
  createdAt : Int
  deriving DecidableEq, Repr

structure Contact where
  id : String
  firstName : String
  lastName : String
  email : Option String
  phone : Option String
  title : Option String
  companyId : Option String
  ownerUserId : String
  createdAt : Int
  deriving DecidableEq, Repr

structure Deal where
  id : String
  title : String
  amountCents : Option Int
  stage : DealStage
  closeDate : Option Int
  companyId : Option String
  contactId : Option String
  ownerUserId : String
  createdAt : Int
  deriving DecidableEq, Repr

structure Task where
  id : String
  title : String
  dueAt : Option Int
  status : TaskStatus
  relatedType : RelatedType
  relatedId : Option String
  ownerUserId : String
  createdAt : Int
  deriving DecidableEq, Repr

structure Note where
  id : String
  body : String
  relatedType : RelatedType
  relatedId : String
  ownerUserId : String
  createdAt : Int
  deriving DecidableEq, Repr

/-- A `document_embeddings` row; `embedding` is `null`able (vector of rationals). -/
structure EmbeddingRow where
  id : String
  sourceType : SourceType
  sourceId : String
  contentText : String
  embedding : Option (List Rat)
  ownerUserId : String
  updatedAt : Int
  deriving DecidableEq, Repr

structure Db where
  companies : List Company
  contacts : List Contact
  deals : List Deal
  tasks : List Task
  notes : List Note
  documentEmbeddings : List EmbeddingRow
  deriving DecidableEq, Repr

/-! ## JavaScript string helpers -/

/-- JS `a || b` on optional strings: `null`/`undefined` and `""` are falsy. -/
def strTruthy : Option String → Option String
  | none => none
  | some s => if s = "" then none else some s

def jsOrStr (a b : Option String) : Option String :=
  match strTruthy a with
  | some v => some v
  | none => strTruthy b

/-- JS `s.slice(0, n)`. -/
def strTake (s : String) (n : Nat) : String :=
  ((s.toList).take n).asString

/-- JS `s.toLowerCase()` as a character list. -/
def lowerChars (s : String) : List Char :=
  s.toList.map Char.toLower

/-- Split a character list at every whitespace character (the segments of JS
`split(/\s+/)` up to empty segments, which every caller filters away). -/
def splitWsChars : List Char → List (List Char)
  | [] => [[]]
  | c :: t =>
    let rest := splitWsChars t
    if c.isWhitespace then [] :: rest
    else
      match rest with
      | [] => [[c]]
      | h :: r => (c :: h) :: r

/-- JS `contentText.trim().length === 0` (also covers the falsy `""`). -/
def trimIsEmpty (s : String) : Bool :=
  s.toList.all Char.isWhitespace

/-- Substring test on character lists (used for Prisma `contains`). -/
def charsContains : List Char → List Char → Bool
  | hay, ned =>
    match hay with
    | [] => ned.isEmpty
    | _ :: t => ned.isPrefixOf hay || charsContains t ned

/-- Case-insensitive `contains` (`mode: 'insensitive'`); the needle is already
lowercased by the callers. -/
def strContainsCI (field term : String) : Bool :=
  charsContains (lowerChars field) term.toList

def optContainsCI (field : Option String) (term : String) : Bool :=
  match field with
  | some s => strContainsCI s term
  | none => false

/-- JS number printing of `cents / 100` (e.g. `12345 ↦ "123.45"`, `12340 ↦ "123.4"`). -/
def centsToJsNumberString (v : Int) : String :=
  let a : Nat := v.natAbs
  let q : Nat := a / 100
  let r : Nat := a % 100
  let sign := if v < 0 then "-" else ""
  let frac :=
    if r = 0 then ""
    else if r % 10 = 0 then "." ++ toString (r / 10)
    else "." ++ (if r < 10 then "0" else "") ++ toString r
  sign ++ toString q ++ frac

/-- JS `` `$${deal.amountCents ? deal.amountCents / 100 : 0}` `` (0 and null are falsy). -/
def dealAmountStr : Option Int → String
  | none => "0"
  | some v => if v = 0 then "0" else centsToJsNumberString v

/-! ## Retrieval engine (`src/lib/retrieval.ts`) -/

structure EntityDetails where
  id : String
  type : SourceType
  title : String
  subtitle : Option String
  url : String
  deriving DecidableEq, Repr

structure RetrievalResult where
  id : String
  sourceType : SourceType
  sourceId : String
  contentText : String
  similarity : Rat
  entity : Option EntityDetails
  deriving DecidableEq, Repr

structure SearchOptions where
  topK : Option Nat
  sourceTypes : Option (List SourceType)
  minSimilarity : Option Rat
  deriving DecidableEq, Repr

/-- `const TOP_K = 8`. -/
def TOP_K : Nat := 8

/-- `const FRESHNESS_WEIGHT = 0.15`. -/
def FRESHNESS_WEIGHT : Rat := 15 / 100

/-- `options?.topK || TOP_K` (JS: 0 is falsy). -/
def optTopK : Option SearchOptions → Nat
  | none => TOP_K
  | some o =>
    match o.topK with
    | none => TOP_K
    | some k => if k = 0 then TOP_K else k

/-- `options?.minSimilarity || 0.3` (JS: 0 is falsy). -/
def optMinSimilarity : Option SearchOptions → Rat
  | none => 3 / 10
  | some o =>
    match o.minSimilarity with
    | none => 3 / 10
    | some v => if v = 0 then 3 / 10 else v

/-- SQL `LEAST` / JS `Math.min` on rationals, as an executable conditional. -/
def leastRat (a b : Rat) : Rat := if a ≤ b then a else b

/-- `1 - LEAST(EXTRACT(EPOCH FROM (NOW() - updatedAt)) / 2592000, 1)`. -/
def freshness (ageSeconds : Rat) : Rat :=
  1 - leastRat (ageSeconds / 2592000) 1

/-- The blended ranking score computed by the retrieval SQL:
`(1 - (embedding <=> query)) * (1 - FRESHNESS_WEIGHT) + freshness * FRESHNESS_WEIGHT`,
expressed over the cosine similarity `1 - distance`. -/
def blendedScore (similarity ageSeconds : Rat) : Rat :=
  similarity * (1 - FRESHNESS_WEIGHT) + freshness ageSeconds * FRESHNESS_WEIGHT

/-- One row of the raw SQL result set (`id, sourceType, sourceId, contentText, similarity`). -/
structure ScoredRow where
  id : String
  sourceType : SourceType
  sourceId : String
  contentText : String
  similarity : Rat
  deriving DecidableEq, Repr

/-- Score of one embedded row against the query vector; the cosine-distance
operator `<=>` of pgvector is the external parameter `dist`. -/
def rowScore (dist : List Rat → List Rat → Rat) (qvec : List Rat) (now : Int)
    (r : EmbeddingRow) : Rat :=
  match r.embedding with
  | some v => blendedScore (1 - dist v qvec) ((now : Rat) - (r.updatedAt : Rat))
  | none => 0

def scoreRow (dist : List Rat → List Rat → Rat) (qvec : List Rat) (now : Int)
    (r : EmbeddingRow) : ScoredRow :=
  { id := r.id, sourceType := r.sourceType, sourceId := r.sourceId,
    contentText := r.contentText, similarity := rowScore dist qvec now r }

/-- Insertion step of the `ORDER BY similarity DESC` sort. -/
def insertScoreDesc (key : α → Rat) (a : α) : List α → List α
  | [] => [a]
  | b :: l => if key b ≤ key a then a :: b :: l else b :: insertScoreDesc key a l

/-- `ORDER BY similarity DESC` as a deterministic insertion sort. -/
def sortScoreDesc (key : α → Rat) : List α → List α
  | [] => []
  | a :: l => insertScoreDesc key a (sortScoreDesc key l)

def relatedUrl (relatedType : RelatedType) (relatedId : String) : String :=
  match relatedType with
  | .COMPANY => "/companies/" ++ relatedId
  | .CONTACT => "/contacts/" ++ relatedId
  | .DEAL => "/deals/" ++ relatedId
  | .NONE => "#"

def lookupCompany (db : Db) : Option String → Option Company
  | none => none
  | some cid => db.companies.find? (fun co => co.id == cid)

/-- `getEntityDetails(sourceType, sourceId, userId)`: owner-scoped `findFirst`
per source type. -/
def getEntityDetails (db : Db) (sourceType : SourceType) (sourceId : String)
    (userId : String) : Option EntityDetails :=
  match sourceType with
  | .COMPANY =>
    match db.companies.find? (fun c => c.id == sourceId && c.ownerUserId == userId) with
    | none => none
    | some company =>
      some { id := company.id, type := .COMPANY, title := company.name,
             subtitle := strTruthy company.website,
             url := "/companies/" ++ company.id }
  | .CONTACT =>
    match db.contacts.find? (fun c => c.id == sourceId && c.ownerUserId == userId) with
    | none => none
    | some contact =>
      some { id := contact.id, type := .CONTACT,
             title := contact.firstName ++ " " ++ contact.lastName,
             subtitle := jsOrStr ((lookupCompany db contact.companyId).map Company.name)
                                 contact.title,
             url := "/contacts/" ++ contact.id }
  | .DEAL =>
    match db.deals.find? (fun d => d.id == sourceId && d.ownerUserId == userId) with
    | none => none
    | some deal =>
      some { id := deal.id, type := .DEAL, title := deal.title,
             subtitle := some (stageName deal.stage ++ " - $" ++ dealAmountStr deal.amountCents),
             url := "/deals/" ++ deal.id }
  | .TASK =>
    match db.tasks.find? (fun t => t.id == sourceId && t.ownerUserId == userId) with
    | none => none
    | some task =>
      some { id := task.id, type := .TASK, title := task.title,
             subtitle := some (taskStatusName task.status),
             url := "/tasks/" ++ task.id }
  | .NOTE =>
    match db.notes.find? (fun n => n.id == sourceId && n.ownerUserId == userId) with
    | none => none
    | some note =>
      some { id := note.id, type := .NOTE,
             title := if note.body.length > 100 then strTake note.body 100 ++ "..." else note.body,
             subtitle := none,
             url := relatedUrl note.relatedType note.relatedId }

/-- `const validSourceTypes` whitelist. -/
def validSourceTypes : List SourceType := [.COMPANY, .CONTACT, .DEAL, .TASK, .NOTE]

/-- `options?.sourceTypes?.filter(t => validSourceTypes.includes(t)) || []`. -/
def filteredSourceTypes (options : Option SearchOptions) : List SourceType :=
  match options with
  | none => []
  | some o =>
    match o.sourceTypes with
    | none => []
    | some l => l.filter (fun t => validSourceTypes.contains t)

/-- The `WHERE` clause of the semantic query: owner filter, `embedding IS NOT
NULL`, and the optional source-type filter (the two SQL branches). -/
def ownerScopedEmbeddedRows (userId : String) (options : Option SearchOptions)
    (db : Db) : List EmbeddingRow :=
  let fst := filteredSourceTypes options
  if fst.length > 0 then
    db.documentEmbeddings.filter (fun r =>
      r.ownerUserId == userId && r.embedding.isSome && fst.contains r.sourceType)
  else
    db.documentEmbeddings.filter (fun r =>
      r.ownerUserId == userId && r.embedding.isSome)

/-- The SQL row set of the semantic query: the `WHERE` clause, blended score,
`ORDER BY similarity DESC LIMIT topK`. -/
def semanticSqlRows (dist : List Rat → List Rat → Rat) (qvec : List Rat) (now : Int)
    (userId : String) (options : Option SearchOptions) (db : Db) : List ScoredRow :=
  (sortScoreDesc ScoredRow.similarity
    ((ownerScopedEmbeddedRows userId options db).map (scoreRow dist qvec now))).take
    (optTopK options)

def enrichResult (db : Db) (userId : String) (r : ScoredRow) : RetrievalResult :=
  { id := r.id, sourceType := r.sourceType, sourceId := r.sourceId,
    contentText := r.contentText, similarity := r.similarity,
    entity := getEntityDetails db r.sourceType r.sourceId userId }

/-- Lines 64-133 of `semanticSearch`: the SQL query followed by the
minimum-similarity post filter (`if (result.similarity < minSimilarity) continue`)
and entity enrichment. -/
def semanticCore (dist : List Rat → List Rat → Rat) (qvec : List Rat) (now : Int)
    (userId : String) (options : Option SearchOptions) (db : Db) : List RetrievalResult :=
  let minSimilarity := optMinSimilarity options
  ((semanticSqlRows dist qvec now userId options db).filter
      (fun r => !(r.similarity < minSimilarity))).map (enrichResult db userId)

/-- `query.toLowerCase().split(/\s+/).filter(t => t.length > 2)`. -/
def searchTermsOf (query : String) : List String :=
  ((splitWsChars (lowerChars query)).map List.asString).filter (fun t => t.length > 2)

/-- `!options?.sourceTypes || options.sourceTypes.includes(t)`. -/
def wantsType (options : Option SearchOptions) (t : SourceType) : Bool :=
  match options with
  | none => true
  | some o =>
    match o.sourceTypes with
    | none => true
    | some l => l.contains t

/-- `keywordSearch`: per-type owner-scoped substring matching with fixed score 0.7. -/
def keywordSearch (query : String) (userId : String) (options : Option SearchOptions)
    (db : Db) : List RetrievalResult :=
  let topK := optTopK options
  let searchTerms := searchTermsOf query
  if searchTerms.length = 0 then []
  else
    let companyResults : List RetrievalResult :=
      if wantsType options .COMPANY then
        ((db.companies.filter (fun c =>
            c.ownerUserId == userId && searchTerms.any (fun term =>
              strContainsCI c.name term || optContainsCI c.website term ||
                optContainsCI c.address term))).take topK).map (fun company =>
          { id := "company-" ++ company.id, sourceType := .COMPANY,
            sourceId := company.id, contentText := "Company: " ++ company.name,
            similarity := 7 / 10,
            entity := some { id := company.id, type := .COMPANY, title := company.name,
                             subtitle := jsOrStr company.website company.phone,
                             url := "/companies/" ++ company.id } })
      else []
    let contactResults : List RetrievalResult :=
      if wantsType options .CONTACT then
        ((db.contacts.filter (fun c =>
            c.ownerUserId == userId && searchTerms.any (fun term =>
              strContainsCI c.firstName term || strContainsCI c.lastName term ||
                optContainsCI c.email term || optContainsCI c.title term))).take topK).map
          (fun contact =>
            let name := contact.firstName ++ " " ++ contact.lastName
            { id := "contact-" ++ contact.id, sourceType := .CONTACT,
              sourceId := contact.id, contentText := "Contact: " ++ name,
              similarity := 7 / 10,
              entity := some { id := contact.id, type := .CONTACT, title := name,
                               subtitle := jsOrStr
                                 ((lookupCompany db contact.companyId).map Company.name)
                                 (jsOrStr contact.title contact.email),
                               url := "/contacts/" ++ contact.id } })
      else []
    let dealResults : List RetrievalResult :=
      if wantsType options .DEAL then
        ((db.deals.filter (fun d =>
            d.ownerUserId == userId && searchTerms.any (fun term =>
              strContainsCI d.title term))).take topK).map (fun deal =>
          { id := "deal-" ++ deal.id, sourceType := .DEAL, sourceId := deal.id,
            contentText := "Deal: " ++ deal.title ++ " - " ++ stageName deal.stage,
            similarity := 7 / 10,
            entity := some { id := deal.id, type := .DEAL, title := deal.title,
                             subtitle := some (stageName deal.stage ++ " - $" ++
                               dealAmountStr deal.amountCents),
                             url := "/deals/" ++ deal.id } })
      else []
    let taskResults : List RetrievalResult :=
      if wantsType options .TASK then
        ((db.tasks.filter (fun t =>
            t.ownerUserId == userId && searchTerms.any (fun term =>
              strContainsCI t.title term))).take topK).map (fun task =>
          { id := "task-" ++ task.id, sourceType := .TASK, sourceId := task.id,
            contentText := "Task: " ++ task.title, similarity := 7 / 10,
            entity := some { id := task.id, type := .TASK, title := task.title,
                             subtitle := some (taskStatusName task.status),
                             url := "/tasks/" ++ task.id } })
      else []
    let noteResults : List RetrievalResult :=
      if wantsType options .NOTE then
        ((db.notes.filter (fun n =>
            n.ownerUserId == userId && searchTerms.any (fun term =>
              strContainsCI n.body term))).take topK).map (fun note =>
          { id := "note-" ++ note.id, sourceType := .NOTE, sourceId := note.id,
            contentText := "Note: " ++ note.body, similarity := 7 / 10,
            entity := some { id := note.id, type := .NOTE,
                             title := if note.body.length > 100
                               then strTake note.body 100 ++ "..." else note.body,
                             subtitle := none,
                             url := relatedUrl note.relatedType note.relatedId } })
      else []
    (companyResults ++ contactResults ++ dealResults ++ taskResults ++ noteResults).take topK

inductive ProviderMode
  | localMode | openai | unavailableMode
  deriving DecidableEq, Repr

structure OllamaHealth where
  hasEmbeddings : Bool
  mode : ProviderMode
  deriving DecidableEq, Repr

/-- `semanticSearch` (lines 42-134): provider-health dispatch, query embedding,
semantic SQL path, with total fallback to `keywordSearch`. -/
def semanticSearch (dist : List Rat → List Rat → Rat) (health : OllamaHealth)
    (queryEmbedding : Option (List Rat)) (now : Int) (query : String)
    (userId : String) (options : Option SearchOptions) (db : Db) : List RetrievalResult :=
  if !health.hasEmbeddings && health.mode ≠ .openai then
    keywordSearch query userId options db
  else
    match queryEmbedding with
    | none => keywordSearch query userId options db
    | some qvec => semanticCore dist qvec now userId options db

/-! ## Conversation window manager (`conversation-manager`) -/

structure ConversationMessage where
  id : String
  role : MessageRole
  content : String
  createdAt : Int
  deriving DecidableEq, Repr

structure ConversationContext where
  summary : Option String
  keyTopics : List String
  entityReferences : List (String × List String)
  lastActivity : Int
  messageCount : Nat
  deriving DecidableEq, Repr

structure ManagedConversation where
  messages : List ConversationMessage
  context : ConversationContext
  shouldSummarize : Bool
  summaryText : Option String
  deriving DecidableEq, Repr

def MAX_ACTIVE_MESSAGES : Nat := 20

def SUMMARY_TRIGGER_MESSAGES : Nat := 15

def MAX_SUMMARY_LENGTH : Nat := 500

/-- `"` or `'` (by code point, 34 and 39). -/
def isQuoteChar (c : Char) : Bool := c.toNat == 34 || c.toNat == 39

/-- One character of the capture class `[^"'\s]`. -/
def isCaptureChar (c : Char) : Bool := !(isQuoteChar c || c.isWhitespace)

/-- The suffix `\s+["']?([^"'\s]+)["']?` of the entity patterns, applied right
after a matched keyword; returns the capture and the rest of the input after
the whole match. -/
def matchAfterKeyword (l : List Char) : Option (String × List Char) :=
  let ws := l.takeWhile Char.isWhitespace
  if ws.isEmpty then none
  else
    let rest1 := l.dropWhile Char.isWhitespace
    let rest2 :=
      match rest1 with
      | c :: t => if isQuoteChar c then t else rest1
      | [] => rest1
    let cap := rest2.takeWhile isCaptureChar
    if cap.isEmpty then none
    else
      let rest3 := rest2.dropWhile isCaptureChar
      let rest4 :=
        match rest3 with
        | c :: t => if isQuoteChar c then t else rest3
        | [] => rest3
      some (cap.asString, rest4)

/-- Try one entity pattern `(?:kw1|kw2)\s+["']?([^"'\s]+)["']?` at the current
position (the keyword alternatives of every pattern are prefix-disjoint, so
trying them in order is the regex alternation). -/
def tryEntityMatch (kws : List String) (l : List Char) : Option (String × List Char) :=
  match kws with
  | [] => none
  | kw :: rest =>
    if kw.toList.isPrefixOf l then
      match matchAfterKeyword (l.drop kw.length) with
      | some r => some r
      | none => tryEntityMatch rest l
    else tryEntityMatch rest l

/-- `content.matchAll(pattern)` capture groups, scanning left to right and
resuming after each match; the fuel starts at the input length and bounds the
left-to-right scan. -/
def scanEntityAux (kws : List String) : Nat → List Char → List String
  | 0, _ => []
  | _, [] => []
  | fuel + 1, l@(_ :: t) =>
    match tryEntityMatch kws l with
    | some (cap, rest) => cap :: scanEntityAux kws fuel rest
    | none => scanEntityAux kws fuel t

def scanEntityMatches (kws : List String) (content : List Char) : List String :=
  scanEntityAux kws content.length content

/-- The fixed `entityPatterns` table, in object-literal order. -/
def entityPatterns : List (String × List String) :=
  [("company", ["company", "client"]),
   ("contact", ["contact", "person"]),
   ("deal", ["deal", "opportunity"]),
   ("task", ["task", "todo"])]

/-- Push each value that is not yet present (the dedup in the match loop). -/
def pushNewAll (existing vals : List String) : List String :=
  vals.foldl (fun acc v => if acc.contains v then acc else acc ++ [v]) existing

/-- `entityReferences[entityType]` update: create the key on first match,
append deduplicated captures. -/
def updateAssoc (refs : List (String × List String)) (key : String)
    (vals : List String) : List (String × List String) :=
  if refs.any (fun p => p.1 == key) then
    refs.map (fun p => if p.1 == key then (p.1, pushNewAll p.2 vals) else p)
  else refs ++ [(key, pushNewAll [] vals)]

/-- Non-overlapping occurrence count, left to right (JS
`content.split(word).length - 1`). -/
def countOccAux (w : List Char) : Nat → List Char → Nat
  | 0, _ => 0
  | _, [] => 0
  | fuel + 1, l@(_ :: t) =>
    if w.isPrefixOf l then 1 + countOccAux w fuel (l.drop w.length)
    else countOccAux w fuel t

def countOcc (s w : List Char) : Nat := countOccAux w s.length s

/-- The per-message topic pass: words longer than 4 characters that occur at
least twice as substrings (`content.split(word).length > 2`). -/
def topicsStep (topics : List String) (content : List Char) : List String :=
  let words := ((splitWsChars content).map List.asString).filter (fun w => w.length > 4)
  words.foldl (fun acc word =>
    if countOcc content word.toList ≥ 2 && !acc.contains word then acc ++ [word] else acc)
    topics

/-- The per-message entity-reference pass over all four patterns. -/
def entityStep (refs : List (String × List String)) (content : List Char) :
    List (String × List String) :=
  entityPatterns.foldl (fun acc p =>
    let found := scanEntityMatches p.2 content
    if found.length > 0 then updateAssoc acc p.1 found else acc)
    refs

/-- `analyzeConversation`: key-topic and entity-mention extraction over the
lowercased contents; `new Date()` is the explicit `now`. -/
def analyzeConversation (now : Int) (messages : List ConversationMessage) :
    ConversationContext :=
  let state := messages.foldl
    (fun (acc : List (String × List String) × List String) msg =>
      let content := lowerChars msg.content
      (entityStep acc.1 content, topicsStep acc.2 content))
    ([], [])
  { summary := none, keyTopics := state.2.take 5, entityReferences := state.1,
    lastActivity := now, messageCount := messages.length }

/-- `generateConversationSummary`: parts joined with `". "`, truncated to
`MAX_SUMMARY_LENGTH` via `substring(0, 497) + '...'`. -/
def generateConversationSummary (now : Int) (messages : List ConversationMessage) :
    String :=
  let context := analyzeConversation now messages
  let topicParts : List String :=
    if context.keyTopics.length > 0 then
      ["Key topics discussed: " ++ String.intercalate ", " context.keyTopics]
    else []
  let entitySummaries : List String :=
    context.entityReferences.filterMap (fun p =>
      if p.2.length > 0 then
        some (p.1 ++ "s: " ++ String.intercalate ", " (p.2.take 3))
      else none)
  let entityParts : List String :=
    if entitySummaries.length > 0 then
      ["Entities mentioned: " ++ String.intercalate "; " entitySummaries]
    else []
  let userCount := (messages.filter (fun m => m.role == .USER)).length
  let assistantCount := (messages.filter (fun m => m.role == .ASSISTANT)).length
  let flowPart :=
    toString userCount ++ " user queries, " ++ toString assistantCount ++
      " assistant responses"
  let summary := String.intercalate ". " (topicParts ++ entityParts ++ [flowPart])
  if summary.length > MAX_SUMMARY_LENGTH then
    strTake summary (MAX_SUMMARY_LENGTH - 3) ++ "..."
  else summary

/-- The synthetic leading system message (`summary-${Date.now()}`). -/
def summaryMessage (now : Int) (summaryText : String) : ConversationMessage :=
  { id := "summary-" ++ toString now, role := .SYSTEM,
    content := "Previous conversation summary: " ++ summaryText, createdAt := now }

/-- `manageConversationHistory`: window to the last `MAX_ACTIVE_MESSAGES`
messages once `SUMMARY_TRIGGER_MESSAGES` is reached, summarizing the older
prefix (`slice(-20)` / `slice(0, -20)`). -/
def manageConversationHistory (now : Int) (messages : List ConversationMessage) :
    ManagedConversation :=
  let context := analyzeConversation now messages
  let shouldSummarize := messages.length ≥ SUMMARY_TRIGGER_MESSAGES
  if shouldSummarize then
    let recentMessages := messages.drop (messages.length - MAX_ACTIVE_MESSAGES)
    let olderMessages := messages.take (messages.length - MAX_ACTIVE_MESSAGES)
    if olderMessages.length > 0 then
      let summaryText := generateConversationSummary now olderMessages
      { messages := summaryMessage now summaryText :: recentMessages,
        context := context, shouldSummarize := true, summaryText := some summaryText }
    else
      { messages := recentMessages, context := context, shouldSummarize := true,
        summaryText := none }
  else
    { messages := messages, context := context, shouldSummarize := false,
      summaryText := none }

/-! ## Response parser and payload validator (`assistant-schemas`)

The decoded JSON value extracted from the raw model output (fenced code block
or brace-delimited object, then `JSON.parse`) is modelled by `Json`; the
extraction itself enters as an `Option Json` (with `none` for "no JSON found
or `JSON.parse` threw"). Zod string-format refinements (`datetime`, `email`,
`url`) belong to the zod library, an external collaborator, and enter as the
`ZodFormats` parameter. -/

inductive Json
  | str (s : String)
  | num (q : Rat)
  | jsonBool (b : Bool)
  | jsonNull
  | arr (xs : List Json)
  | obj (fields : List (String × Json))

def Json.getField (j : Json) (k : String) : Option Json :=
  match j with
  | .obj fs => (fs.find? (fun p => p.1 == k)).map (fun p => p.2)
  | _ => none

def Json.isObj : Json → Bool
  | .obj _ => true
  | _ => false

structure ZodFormats where
  isDatetime : String → Bool
  isEmail : String → Bool
  isUrl : String → Bool

/-- `z.string()` required field. -/
def fieldString (j : Json) (k : String) : Bool :=
  match j.getField k with
  | some (.str _) => true
  | _ => false

/-- `z.string().min(1)` required field. -/
def fieldStringMin1 (j : Json) (k : String) : Bool :=
  match j.getField k with
  | some (.str s) => decide (1 ≤ s.length)
  | _ => false

/-- `z.string().optional()`: absent or a string (null rejected). -/
def fieldOptString (j : Json) (k : String) : Bool :=
  match j.getField k with
  | none => true
  | some (.str _) => true
  | _ => false

/-- `z.string().optional().nullable()`: absent, null, or a string. -/
def fieldOptNullString (j : Json) (k : String) : Bool :=
  match j.getField k with
  | none => true
  | some .jsonNull => true
  | some (.str _) => true
  | _ => false

/-- `z.string().<fmt>().optional().nullable()` for a zod format refinement. -/
def fieldOptNullFormat (fmt : String → Bool) (j : Json) (k : String) : Bool :=
  match j.getField k with
  | none => true
  | some .jsonNull => true
  | some (.str s) => fmt s
  | _ => false

/-- `z.number().int().positive().optional().nullable()`. -/
def fieldOptNullPosInt (j : Json) (k : String) : Bool :=
  match j.getField k with
  | none => true
  | some .jsonNull => true
  | some (.num q) => decide (q.den = 1) && decide (0 < q)
  | _ => false

/-- `z.nativeEnum(E)` against the enum's string values, required. -/
def fieldEnum (names : List String) (j : Json) (k : String) : Bool :=
  match j.getField k with
  | some (.str s) => names.contains s
  | _ => false

/-- `z.nativeEnum(E).optional()` (also covers `.optional().default(_)`,
which only changes the parsed value, not validity). -/
def fieldOptEnum (names : List String) (j : Json) (k : String) : Bool :=
  match j.getField k with
  | none => true
  | some (.str s) => names.contains s
  | _ => false

/-- `z.array(z.string()).min(1)` required field. -/
def fieldStringArrayMin1 (j : Json) (k : String) : Bool :=
  match j.getField k with
  | some (.arr xs) =>
    decide (1 ≤ xs.length) && xs.all (fun x => match x with | .str _ => true | _ => false)
  | _ => false

def relatedTypeNames : List String := ["CONTACT", "COMPANY", "DEAL", "NONE"]

def dealStageNames : List String :=
  ["LEAD", "QUALIFIED", "PROPOSAL", "NEGOTIATION", "WON", "LOST"]

def taskStatusNames : List String := ["OPEN", "DONE"]

def createTaskPayloadValid (F : ZodFormats) (j : Json) : Bool :=
  j.isObj && fieldStringMin1 j "title" &&
    fieldOptNullFormat F.isDatetime j "dueAt" &&
    fieldOptEnum relatedTypeNames j "relatedType" &&
    fieldOptNullString j "relatedId"

def createNotePayloadValid (_F : ZodFormats) (j : Json) : Bool :=
  j.isObj && fieldStringMin1 j "body" &&
    fieldEnum relatedTypeNames j "relatedType" &&
    fieldStringMin1 j "relatedId"

def createDealPayloadValid (F : ZodFormats) (j : Json) : Bool :=
  j.isObj && fieldStringMin1 j "title" &&
    fieldOptNullPosInt j "amountCents" &&
    fieldOptEnum dealStageNames j "stage" &&
    fieldOptNullFormat F.isDatetime j "closeDate" &&
    fieldOptNullString j "companyId" &&
    fieldOptNullString j "contactId"

def updateDealStagePayloadValid (_F : ZodFormats) (j : Json) : Bool :=
  j.isObj && fieldStringMin1 j "dealId" && fieldEnum dealStageNames j "stage"

def updateContactPayloadValid (F : ZodFormats) (j : Json) : Bool :=
  j.isObj && fieldStringMin1 j "contactId" &&
    fieldOptString j "firstName" && fieldOptString j "lastName" &&
    fieldOptNullFormat F.isEmail j "email" &&
    fieldOptNullString j "phone" && fieldOptNullString j "title" &&
    fieldOptNullString j "companyId"

def updateCompanyPayloadValid (F : ZodFormats) (j : Json) : Bool :=
  j.isObj && fieldStringMin1 j "companyId" &&
    fieldOptString j "name" && fieldOptNullFormat F.isUrl j "website" &&
    fieldOptNullString j "phone" && fieldOptNullString j "address"

def createContactPayloadValid (F : ZodFormats) (j : Json) : Bool :=
  j.isObj && fieldStringMin1 j "firstName" && fieldStringMin1 j "lastName" &&
    fieldOptNullFormat F.isEmail j "email" &&
    fieldOptNullString j "phone" && fieldOptNullString j "title" &&
    fieldOptNullString j "companyId"

def createCompanyPayloadValid (F : ZodFormats) (j : Json) : Bool :=
  j.isObj && fieldStringMin1 j "name" && fieldOptNullFormat F.isUrl j "website" &&
    fieldOptNullString j "phone" && fieldOptNullString j "address"

def updateTaskPayloadValid (F : ZodFormats) (j : Json) : Bool :=
  j.isObj && fieldStringMin1 j "taskId" && fieldOptString j "title" &&
    fieldOptNullFormat F.isDatetime j "dueAt" &&
    fieldOptEnum taskStatusNames j "status"

def deleteTaskPayloadValid (_F : ZodFormats) (j : Json) : Bool :=
  j.isObj && fieldStringMin1 j "taskId"

def deleteNotePayloadValid (_F : ZodFormats) (j : Json) : Bool :=
  j.isObj && fieldStringMin1 j "noteId"

def deleteDealPayloadValid (_F : ZodFormats) (j : Json) : Bool :=
  j.isObj && fieldStringMin1 j "dealId"

def deleteContactPayloadValid (_F : ZodFormats) (j : Json) : Bool :=
  j.isObj && fieldStringMin1 j "contactId"

def deleteCompanyPayloadValid (_F : ZodFormats) (j : Json) : Bool :=
  j.isObj && fieldStringMin1 j "companyId"

/-- The nested `updates` object of `bulkUpdateDealsPayloadSchema`. -/
def bulkDealUpdatesValid (F : ZodFormats) (j : Json) : Bool :=
  j.isObj && fieldOptEnum dealStageNames j "stage" &&
    fieldOptNullFormat F.isDatetime j "closeDate" &&
    fieldOptNullPosInt j "amountCents"

def bulkUpdateDealsPayloadValid (F : ZodFormats) (j : Json) : Bool :=
  j.isObj && fieldStringArrayMin1 j "dealIds" &&
    (match j.getField "updates" with
     | some u => bulkDealUpdatesValid F u
     | none => false)

def bulkTaskUpdatesValid (F : ZodFormats) (j : Json) : Bool :=
  j.isObj && fieldOptEnum taskStatusNames j "status" &&
    fieldOptNullFormat F.isDatetime j "dueAt"

def bulkUpdateTasksPayloadValid (F : ZodFormats) (j : Json) : Bool :=
  j.isObj && fieldStringArrayMin1 j "taskIds" &&
    (match j.getField "updates" with
     | some u => bulkTaskUpdatesValid F u
     | none => false)

def bulkContactUpdatesValid (_F : ZodFormats) (j : Json) : Bool :=
  j.isObj && fieldOptNullString j "title" && fieldOptNullString j "companyId"

def bulkUpdateContactsPayloadValid (F : ZodFormats) (j : Json) : Bool :=
  j.isObj && fieldStringArrayMin1 j "contactIds" &&
    (match j.getField "updates" with
     | some u => bulkContactUpdatesValid F u
     | none => false)

/-- `validatePayload(actionType, payload)`: per-type schema dispatch; the
`valid` flag of the returned record. -/
def validatePayload (F : ZodFormats) (actionType : ActionType) (payload : Json) : Bool :=
  match actionType with
  | .CREATE_TASK => createTaskPayloadValid F payload
  | .CREATE_NOTE => createNotePayloadValid F payload
  | .CREATE_DEAL => createDealPayloadValid F payload
  | .CREATE_CONTACT => createContactPayloadValid F payload
  | .CREATE_COMPANY => createCompanyPayloadValid F payload
  | .UPDATE_DEAL_STAGE => updateDealStagePayloadValid F payload
  | .UPDATE_CONTACT => updateContactPayloadValid F payload
  | .UPDATE_COMPANY => updateCompanyPayloadValid F payload
  | .UPDATE_TASK => updateTaskPayloadValid F payload
  | .DELETE_TASK => deleteTaskPayloadValid F payload
  | .DELETE_NOTE => deleteNotePayloadValid F payload
  | .DELETE_DEAL => deleteDealPayloadValid F payload
  | .DELETE_CONTACT => deleteContactPayloadValid F payload
  | .DELETE_COMPANY => deleteCompanyPayloadValid F payload
  | .BULK_UPDATE_DEALS => bulkUpdateDealsPayloadValid F payload
  | .BULK_UPDATE_TASKS => bulkUpdateTasksPayloadValid F payload
  | .BULK_UPDATE_CONTACTS => bulkUpdateContactsPayloadValid F payload

def actionTypeName : ActionType → String
  | .CREATE_TASK => "CREATE_TASK"
  | .CREATE_NOTE => "CREATE_NOTE"
  | .CREATE_DEAL => "CREATE_DEAL"
  | .CREATE_CONTACT => "CREATE_CONTACT"
  | .CREATE_COMPANY => "CREATE_COMPANY"
  | .UPDATE_DEAL_STAGE => "UPDATE_DEAL_STAGE"
  | .UPDATE_CONTACT => "UPDATE_CONTACT"
  | .UPDATE_COMPANY => "UPDATE_COMPANY"
  | .UPDATE_TASK => "UPDATE_TASK"
  | .DELETE_TASK => "DELETE_TASK"
  | .DELETE_NOTE => "DELETE_NOTE"
  | .DELETE_DEAL => "DELETE_DEAL"
  | .DELETE_CONTACT => "DELETE_CONTACT"
  | .DELETE_COMPANY => "DELETE_COMPANY"
  | .BULK_UPDATE_DEALS => "BULK_UPDATE_DEALS"
  | .BULK_UPDATE_TASKS => "BULK_UPDATE_TASKS"
  | .BULK_UPDATE_CONTACTS => "BULK_UPDATE_CONTACTS"

def actionTypeOfString (s : String) : Option ActionType :=
  ([.CREATE_TASK, .CREATE_NOTE, .CREATE_DEAL, .CREATE_CONTACT, .CREATE_COMPANY,
    .UPDATE_DEAL_STAGE, .UPDATE_CONTACT, .UPDATE_COMPANY, .UPDATE_TASK,
    .DELETE_TASK, .DELETE_NOTE, .DELETE_DEAL, .DELETE_CONTACT, .DELETE_COMPANY,
    .BULK_UPDATE_DEALS, .BULK_UPDATE_TASKS,
    (.BULK_UPDATE_CONTACTS : ActionType)].find? (fun a => actionTypeName a == s))

structure ActionProposal where
  actionType : ActionType
  payload : Json
  summary : String
  confirmationMessage : Option String

structure Citation where
  id : String
  type : String
  title : String
  url : String
  deriving DecidableEq, Repr

structure AssistantResponse where
  content : String
  citations : List Citation
  deriving DecidableEq, Repr

inductive LLMResponse
  | proposal (p : ActionProposal)
  | text (t : AssistantResponse)

/-- `actionProposalSchema.safeParse`: type literal, a known `actionType`, a
`payload` that is merely any JSON object (`z.record(z.unknown())`), a nonempty
`summary`, an optional string `confirmationMessage`. The type-specific payload
schemas are not consulted here. -/
def parseActionProposal (j : Json) : Option ActionProposal :=
  match j.getField "type" with
  | some (.str t) =>
    if t = "action_proposal" then
      match j.getField "actionType" with
      | some (.str s) =>
        match actionTypeOfString s with
        | some a =>
          match j.getField "payload" with
          | some (.obj pf) =>
            match j.getField "summary" with
            | some (.str sum) =>
              if 1 ≤ sum.length then
                match j.getField "confirmationMessage" with
                | none => some { actionType := a, payload := .obj pf, summary := sum,
                                 confirmationMessage := none }
                | some (.str cm) => some { actionType := a, payload := .obj pf,
                                           summary := sum, confirmationMessage := some cm }
                | some _ => none
              else none
            | _ => none
          | _ => none
        | none => none
      | _ => none
    else none
  | _ => none

def parseCitation (j : Json) : Option Citation :=
  match j.getField "id", j.getField "type", j.getField "title", j.getField "url" with
  | some (.str i), some (.str t), some (.str ti), some (.str u) =>
    some { id := i, type := t, title := ti, url := u }
  | _, _, _, _ => none

def parseCitationList (xs : List Json) : Option (List Citation) :=
  xs.foldr (fun x acc =>
    match parseCitation x, acc with
    | some c, some l => some (c :: l)
    | _, _ => none) (some [])

/-- `assistantResponseSchema.safeParse`: `type` defaults to `"text"`,
`content` is a required string, `citations` defaults to `[]`. -/
def parseTextResponse (j : Json) : Option AssistantResponse :=
  let typeOk :=
    match j.getField "type" with
    | none => true
    | some (.str t) => t = "text"
    | some _ => false
  if typeOk then
    match j.getField "content" with
    | some (.str c) =>
      match j.getField "citations" with
      | none => some { content := c, citations := [] }
      | some (.arr xs) => (parseCitationList xs).map (fun l => { content := c, citations := l })
      | some _ => none
    | _ => none
  else none

/-- `llmResponseSchema.safeParse`: the zod union tries the proposal shape, then
the plain-text shape. -/
def llmResponseParse (j : Json) : Option LLMResponse :=
  match parseActionProposal j with
  | some p => some (.proposal p)
  | none => (parseTextResponse j).map .text

/-- `parseAssistantResponse` from the decoded extraction onward: `none` for "no
JSON block found or `JSON.parse` threw", otherwise the union parse; a schema
failure returns null (plain text), never an error. -/
def parseAssistantResponseDecoded (extracted : Option Json) : Option LLMResponse :=
  match extracted with
  | none => none
  | some j => llmResponseParse j

/-- The chat route's persistence decision (part_001 lines 204-230): when the
parsed response is an action proposal, an `assistantAction` row is created with
status `PROPOSED`; otherwise nothing is persisted. -/
def chatPersistsProposal (extracted : Option Json) : Option (ActionType × Json) :=
  match parseAssistantResponseDecoded extracted with
  | some (.proposal p) => some (p.actionType, p.payload)
  | _ => none

/-! ## Action state machine (assistant server actions, part_013) -/

structure ThreadRec where
  id : String
  ownerUserId : String
  deriving Repr

structure ActionRec where
  id : String
  threadId : String
  actionType : ActionType
  payloadJson : Json
  status : ActionStatus
  errorMsg : Option String
  executedAt : Option Int

structure AppState where
  db : Db
  threads : List ThreadRec
  actions : List ActionRec

/-- Result of `confirmAction`/`cancelAction`: a thrown error, or the returned
`{ success, error? }` record. -/
inductive ActionCallResult
  | thrown (msg : String)
  | ok (success : Bool) (error : Option String)

def ActionCallResult.isThrown : ActionCallResult → Bool
  | .thrown _ => true
  | _ => false

def setActionStatus (st : AppState) (actionId : String) (f : ActionRec → ActionRec) :
    AppState :=
  { st with actions := st.actions.map (fun a => if a.id == actionId then f a else a) }

/-- `confirmAction(actionId)`: session check, owner check through the including
thread, the `status !== PROPOSED` guard, then `CONFIRMED` → execute →
`EXECUTED`/`FAILED`. The concrete mutation dispatch (`executeAction`, 17 typed
executors) is the parameter `exec`; the ones the claims exercise are defined
concretely below. A missing including thread cannot satisfy the owner check and
is folded into the "Action not found" rejection. -/
def confirmAction (exec : ActionType → Json → String → Db → Except String Db)
    (sessionUserId : Option String) (now : Int) (actionId : String) (st : AppState) :
    ActionCallResult × AppState :=
  match sessionUserId with
  | none => (.thrown "Unauthorized", st)
  | some uid =>
    match st.actions.find? (fun a => a.id == actionId) with
    | none => (.thrown "Action not found", st)
    | some action =>
      match st.threads.find? (fun t => t.id == action.threadId) with
      | none => (.thrown "Action not found", st)
      | some thread =>
        if thread.ownerUserId ≠ uid then (.thrown "Action not found", st)
        else if action.status ≠ .PROPOSED then
          (.thrown "Action cannot be confirmed", st)
        else
          let st1 := setActionStatus st actionId (fun a => { a with status := .CONFIRMED })
          match exec action.actionType action.payloadJson uid st1.db with
          | .ok db2 =>
            (.ok true none,
             setActionStatus { st1 with db := db2 } actionId
               (fun a => { a with status := .EXECUTED, executedAt := some now }))
          | .error e =>
            (.ok false (some e),
             setActionStatus st1 actionId
               (fun a => { a with status := .FAILED, errorMsg := some e }))

/-- `cancelAction(actionId)`: same ownership/status preconditions, then
`PROPOSED → CANCELLED` with no effect on business records. -/
def cancelAction (sessionUserId : Option String) (actionId : String) (st : AppState) :
    ActionCallResult × AppState :=
  match sessionUserId with
  | none => (.thrown "Unauthorized", st)
  | some uid =>
    match st.actions.find? (fun a => a.id == actionId) with
    | none => (.thrown "Action not found", st)
    | some action =>
      match st.threads.find? (fun t => t.id == action.threadId) with
      | none => (.thrown "Action not found", st)
      | some thread =>
        if thread.ownerUserId ≠ uid then (.thrown "Action not found", st)
        else if action.status ≠ .PROPOSED then
          (.thrown "Action cannot be cancelled", st)
        else
          (.ok true none,
           setActionStatus st actionId (fun a => { a with status := .CANCELLED }))

/-! ### Bulk executors (claim C7) -/

/-- `updates` of `BulkUpdateDealsPayload`; the outer `Option` is
defined-vs-`undefined`, the inner one is the explicit `null`. -/
structure BulkDealUpdates where
  stage : Option DealStage
  closeDate : Option (Option Int)
  amountCents : Option (Option Int)
  deriving DecidableEq, Repr

structure BulkUpdateDealsPayload where
  dealIds : List String
  updates : BulkDealUpdates
  deriving DecidableEq, Repr

structure BulkTaskUpdates where
  status : Option TaskStatus
  dueAt : Option (Option Int)
  deriving DecidableEq, Repr

structure BulkUpdateTasksPayload where
  taskIds : List String
  updates : BulkTaskUpdates
  deriving DecidableEq, Repr

structure BulkContactUpdates where
  title : Option (Option String)
  companyId : Option (Option String)
  deriving DecidableEq, Repr

structure BulkUpdateContactsPayload where
  contactIds : List String
  updates : BulkContactUpdates
  deriving DecidableEq, Repr

def applyDealUpdates (u : BulkDealUpdates) (d : Deal) : Deal :=
  let d1 := match u.stage with
    | some s => { d with stage := s }
    | none => d
  let d2 := match u.closeDate with
    | some v => { d1 with closeDate := v }
    | none => d1
  match u.amountCents with
  | some v => { d2 with amountCents := v }
  | none => d2

/-- `executeBulkUpdateDeals`: `findMany({id ∈ dealIds, ownerUserId})`, total
rejection when the count differs from `dealIds.length`, then `updateMany` keyed
by ids and owner. -/
def executeBulkUpdateDeals (p : BulkUpdateDealsPayload) (userId : String)
    (db : Db) : Except String Db :=
  let deals := db.deals.filter (fun d => p.dealIds.contains d.id && d.ownerUserId == userId)
  if deals.length ≠ p.dealIds.length then
    .error "One or more deals not found or not owned by user"
  else
    .ok { db with deals := db.deals.map (fun d =>
      if p.dealIds.contains d.id && d.ownerUserId == userId then
        applyDealUpdates p.updates d
      else d) }

def applyTaskUpdates (u : BulkTaskUpdates) (t : Task) : Task :=
  let t1 := match u.status with
    | some s => { t with status := s }
    | none => t
  match u.dueAt with
  | some v => { t1 with dueAt := v }
  | none => t1

/-- `executeBulkUpdateTasks`: same precondition shape over tasks. -/
def executeBulkUpdateTasks (p : BulkUpdateTasksPayload) (userId : String)
    (db : Db) : Except String Db :=
  let tasks := db.tasks.filter (fun t => p.taskIds.contains t.id && t.ownerUserId == userId)
  if tasks.length ≠ p.taskIds.length then
    .error "One or more tasks not found or not owned by user"
  else
    .ok { db with tasks := db.tasks.map (fun t =>
      if p.taskIds.contains t.id && t.ownerUserId == userId then
        applyTaskUpdates p.updates t
      else t) }

def applyContactUpdates (u : BulkContactUpdates) (c : Contact) : Contact :=
  let c1 := match u.title with
    | some v => { c with title := v }
    | none => c
  match u.companyId with
  | some v => { c1 with companyId := v }
  | none => c1

/-- JS truthiness of `payload.updates.companyId` (undefined, null and `""` falsy). -/
def bulkContactsCompanyIdTruthy (u : BulkContactUpdates) : Option String :=
  match u.companyId with
  | some (some cid) => if cid = "" then none else some cid
  | _ => none

/-- `executeBulkUpdateContacts`: count precondition, then the company-ownership
check for a truthy `updates.companyId`, then `updateMany` keyed by ids and owner. -/
def executeBulkUpdateContacts (p : BulkUpdateContactsPayload) (userId : String)
    (db : Db) : Except String Db :=
  let contacts := db.contacts.filter (fun c =>
    p.contactIds.contains c.id && c.ownerUserId == userId)
  if contacts.length ≠ p.contactIds.length then
    .error "One or more contacts not found or not owned by user"
  else
    let companyOk :=
      match bulkContactsCompanyIdTruthy p.updates with
      | none => true
      | some cid => (db.companies.find? (fun co =>
          co.id == cid && co.ownerUserId == userId)).isSome
    if !companyOk then .error "Company not found or not owned by user"
    else
      .ok { db with contacts := db.contacts.map (fun c =>
        if p.contactIds.contains c.id && c.ownerUserId == userId then
          applyContactUpdates p.updates c
        else c) }

/-! ### Ownership-guarded single mutations (claim C9)

`executeUpdateDealStage` and `executeDeleteTask` in the source are two separate
database operations: an owner-scoped `findFirst`, then an `update`/`delete`
keyed by the record id alone. The two phases are modelled separately so that an
interleaved state change between them can be expressed. -/

structure UpdateDealStagePayload where
  dealId : String
  stage : DealStage
  deriving DecidableEq, Repr

structure DeleteTaskPayload where
  taskId : String
  deriving DecidableEq, Repr

/-- Phase 1 of `executeUpdateDealStage`: `findFirst({ id, ownerUserId })`. -/
def dealStageCheck (p : UpdateDealStagePayload) (userId : String) (db : Db) : Bool :=
  (db.deals.find? (fun d => d.id == p.dealId && d.ownerUserId == userId)).isSome

/-- Phase 2 of `executeUpdateDealStage`: `prisma.deal.update({ where: { id } })`
— keyed by id only; Prisma throws when no row matches. -/
def dealStageWrite (p : UpdateDealStagePayload) (db : Db) : Except String Db :=
  if db.deals.any (fun d => d.id == p.dealId) then
    .ok { db with deals := db.deals.map (fun d =>
      if d.id == p.dealId then { d with stage := p.stage } else d) }
  else .error "Record to update not found"

/-- The sequential composition as written in the source. -/
def executeUpdateDealStage (p : UpdateDealStagePayload) (userId : String)
    (db : Db) : Except String Db :=
  if dealStageCheck p userId db then dealStageWrite p db
  else .error "Deal not found or not owned by user"

/-- The source's two database operations with an interleaved external state
change `g` (another request or client committing between the `findFirst` and
the `update`). -/
def executeUpdateDealStageInterleaved (g : Db → Db) (p : UpdateDealStagePayload)
    (userId : String) (db : Db) : Except String Db :=
  if dealStageCheck p userId db then dealStageWrite p (g db)
  else .error "Deal not found or not owned by user"

/-- Modelled from the spec: the ownership check and the stage mutation as one
conditional update keyed by both record id and owner id ("a single conditional
statement at the storage layer"), reporting rows affected. This definition does
not appear in the source; it is the spec's required shape, for comparison. -/
def executeUpdateDealStageAtomic (p : UpdateDealStagePayload) (userId : String)
    (db : Db) : Except String Db :=
  if db.deals.any (fun d => d.id == p.dealId && d.ownerUserId == userId) then
    .ok { db with deals := db.deals.map (fun d =>
      if d.id == p.dealId && d.ownerUserId == userId then { d with stage := p.stage }
      else d) }
  else .error "Deal not found or not owned by user"

/-- Phase 1 of `executeDeleteTask`: `findFirst({ id, ownerUserId })`. -/
def deleteTaskCheck (p : DeleteTaskPayload) (userId : String) (db : Db) : Bool :=
  (db.tasks.find? (fun t => t.id == p.taskId && t.ownerUserId == userId)).isSome

/-- Phase 2 of `executeDeleteTask`: `prisma.task.delete({ where: { id } })`. -/
def deleteTaskWrite (p : DeleteTaskPayload) (db : Db) : Except String Db :=
  if db.tasks.any (fun t => t.id == p.taskId) then
    .ok { db with tasks := db.tasks.filter (fun t => !(t.id == p.taskId)) }
  else .error "Record to delete does not exist"

def executeDeleteTask (p : DeleteTaskPayload) (userId : String) (db : Db) :
    Except String Db :=
  if deleteTaskCheck p userId db then deleteTaskWrite p db
  else .error "Task not found or not owned by user"

def executeDeleteTaskInterleaved (g : Db → Db) (p : DeleteTaskPayload)
    (userId : String) (db : Db) : Except String Db :=
  if deleteTaskCheck p userId db then deleteTaskWrite p (g db)
  else .error "Task not found or not owned by user"

/-! ## Embedding pipeline retry (`src/lib/embeddings.ts`) -/

/-- One provider call outcome: a returned value (possibly `null`), or a thrown
exception. -/
inductive EmbedOutcome
  | ret (v : Option (List Rat))
  | exn (msg : String)
  deriving Repr

/-- Success test of an attempt: `if (embedding && embedding.length > 0)`. -/
def outcomeSucceeds : EmbedOutcome → Bool
  | .ret (some v) => decide (0 < v.length)
  | _ => false

def outcomeThrows : EmbedOutcome → Bool
  | .exn _ => true
  | _ => false

structure RetryTrace where
  embedding : Option (List Rat)
  retryCount : Nat
  calls : Nat
  delays : List Rat
  deriving Repr

/-- `Math.min(1000 * Math.pow(2, attempt - 1), 5000)` (milliseconds). -/
def backoffDelay (attempt : Nat) : Rat :=
  leastRat (1000 * ((2 ^ (attempt - 1) : Nat) : Rat)) 5000

/-- The `for (attempt = 1; attempt <= maxRetries; attempt++)` loop of
`generateEmbeddingWithRetry`; `delays` lists the waits actually performed, in
order. A wait happens only in the `catch` branch, and only when the failed
attempt was not the last one. -/
def retryAux (provider : Nat → EmbedOutcome) (maxRetries : Nat) :
    Nat → Nat → RetryTrace
  | 0, _ => { embedding := none, retryCount := maxRetries - 1, calls := 0, delays := [] }
  | remaining + 1, attempt =>
    match provider attempt with
    | .ret (some v) =>
      if 0 < v.length then
        { embedding := some v, retryCount := attempt - 1, calls := 1, delays := [] }
      else
        let n := retryAux provider maxRetries remaining (attempt + 1)
        { n with calls := n.calls + 1 }
    | .ret none =>
      let n := retryAux provider maxRetries remaining (attempt + 1)
      { n with calls := n.calls + 1 }
    | .exn _ =>
      let n := retryAux provider maxRetries remaining (attempt + 1)
      if attempt < maxRetries then
        { n with calls := n.calls + 1, delays := backoffDelay attempt :: n.delays }
      else
        { n with calls := n.calls + 1 }

/-- `generateEmbeddingWithRetry(text, maxRetries = 3)`; the provider oracle maps
the attempt number to that call's outcome. -/
def generateEmbeddingWithRetry (provider : String → Nat → EmbedOutcome)
    (text : String) (maxRetries : Nat) : RetryTrace :=
  retryAux (provider text) maxRetries maxRetries 1

structure EmbeddableContent where
  sourceType : SourceType
  sourceId : String
  contentText : String
  ownerUserId : String
  deriving DecidableEq, Repr

/-- `content.contentText.length > 10000 ? substring(0, 10000) : unchanged`. -/
def truncatedContentText (content : EmbeddableContent) : String :=
  if content.contentText.length > 10000 then strTake content.contentText 10000
  else content.contentText

/-- `upsertEmbedding`: provider-availability gate, empty-content gate,
truncation, retry, then the raw-SQL upsert (modelled only through its success
flag; the row write and the metric event carry no claim). Every failure path —
including the surrounding `try/catch` — returns `false` rather than raising. -/
def upsertEmbedding (health : OllamaHealth) (provider : String → Nat → EmbedOutcome)
    (content : EmbeddableContent) : Bool :=
  if !health.hasEmbeddings && health.mode ≠ .openai then false
  else if trimIsEmpty content.contentText then false
  else
    let trace := generateEmbeddingWithRetry provider (truncatedContentText content) 3
    match trace.embedding with
    | none => false
    | some _ => true

theorem leastRat_eq_min (a b : Rat) : leastRat a b = min a b := by
  rw [leastRat, min_def]

/-! ## Sorting lemmas for the ranking pipeline -/

def SortedDesc (key : α → Rat) (l : List α) : Prop :=
  List.Pairwise (fun x y => key y ≤ key x) l

theorem mem_insertScoreDesc {key : α → Rat} {a b : α} {l : List α}
    (h : b ∈ insertScoreDesc key a l) : b = a ∨ b ∈ l := by
  induction l with
  | nil =>
    simp only [insertScoreDesc, List.mem_singleton] at h
    exact Or.inl h
  | cons c t ih =>
    by_cases hc : key c ≤ key a
    · simpa [insertScoreDesc, hc] using h
    · simp only [insertScoreDesc, if_neg hc, List.mem_cons] at h
      rcases h with h | h
      · exact Or.inr (by simp [h])
      · rcases ih h with h | h
        · exact Or.inl h
        · exact Or.inr (List.mem_cons_of_mem _ h)

theorem mem_sortScoreDesc {key : α → Rat} {b : α} {l : List α}
    (h : b ∈ sortScoreDesc key l) : b ∈ l := by
  induction l with
  | nil => simp [sortScoreDesc] at h
  | cons a t ih =>
    simp only [sortScoreDesc] at h
    rcases mem_insertScoreDesc h with h | h
    · simp [h]
    · exact List.mem_cons_of_mem _ (ih h)

theorem sortedDesc_insertScoreDesc {key : α → Rat} {a : α} {l : List α}
    (h : SortedDesc key l) : SortedDesc key (insertScoreDesc key a l) := by
  induction l with
  | nil => simp [insertScoreDesc, SortedDesc]
  | cons b t ih =>
    rcases List.pairwise_cons.mp h with ⟨hb, ht⟩
    by_cases hc : key b ≤ key a
    · rw [show insertScoreDesc key a (b :: t) = a :: b :: t from by
        simp [insertScoreDesc, hc]]
      refine List.pairwise_cons.mpr ⟨?_, h⟩
      intro y hy
      rcases List.mem_cons.mp hy with rfl | hy
      · exact hc
      · exact le_trans (hb y hy) hc
    · rw [show insertScoreDesc key a (b :: t) = b :: insertScoreDesc key a t from by
        simp [insertScoreDesc, hc]]
      refine List.pairwise_cons.mpr ⟨?_, ih ht⟩
      intro y hy
      rcases mem_insertScoreDesc hy with rfl | hy
      · exact le_of_lt (lt_of_not_le hc)
      · exact hb y hy

theorem sortedDesc_sortScoreDesc {key : α → Rat} (l : List α) :
    SortedDesc key (sortScoreDesc key l) := by
  induction l with
  | nil => simp [sortScoreDesc, SortedDesc]
  | cons a t ih => exact sortedDesc_insertScoreDesc ih

theorem insertScoreDesc_front {key : α → Rat} {a : α} {l : List α}
    (h : ∀ y ∈ l, key y ≤ key a) : insertScoreDesc key a l = a :: l := by
  cases l with
  | nil => rfl
  | cons c t => simp [insertScoreDesc, h c (by simp)]

theorem filter_insertScoreDesc {key : α → Rat} (p : α → Bool) {a : α} {l : List α}
    (h : SortedDesc key l) :
    (insertScoreDesc key a l).filter p =
      if p a then insertScoreDesc key a (l.filter p) else l.filter p := by
  induction l with
  | nil =>
    by_cases hp : p a <;> simp [insertScoreDesc, hp]
  | cons b t ih =>
    rcases List.pairwise_cons.mp h with ⟨hb, ht⟩
    by_cases hba : key b ≤ key a
    · by_cases hpb : p b
      · by_cases hpa : p a <;>
          simp [insertScoreDesc, hba, hpa, hpb, List.filter_cons]
      · have hfront : insertScoreDesc key a (t.filter p) = a :: t.filter p := by
          refine insertScoreDesc_front ?_
          intro y hy
          exact le_trans (hb y (List.mem_of_mem_filter hy)) hba
        by_cases hpa : p a <;>
          simp [insertScoreDesc, hba, hpa, hpb, List.filter_cons, hfront]
    · by_cases hpb : p b
      · by_cases hpa : p a <;>
          simp [insertScoreDesc, hba, hpa, hpb, List.filter_cons, ih ht]
      · by_cases hpa : p a <;>
          simp [insertScoreDesc, hba, hpa, hpb, List.filter_cons, ih ht]

theorem filter_sortScoreDesc {key : α → Rat} (p : α → Bool) (l : List α) :
    (sortScoreDesc key l).filter p = sortScoreDesc key (l.filter p) := by
  induction l with
  | nil => simp [sortScoreDesc]
  | cons a t ih =>
    by_cases hpa : p a <;>
      simp [sortScoreDesc, List.filter_cons, hpa,
        filter_insertScoreDesc p (sortedDesc_sortScoreDesc t), ih]

/-- On a list sorted by descending key, filtering by an upward-closed predicate
commutes with `take`. -/
theorem sorted_take_filter {key : α → Rat} (p : α → Bool)
    (hup : ∀ x y, key y ≤ key x → p y = true → p x = true) :
    ∀ (l : List α) (k : Nat), SortedDesc key l →
      (l.take k).filter p = (l.filter p).take k := by
  intro l
  induction l with
  | nil => intro k _; simp
  | cons a t ih =>
    intro k h
    rcases List.pairwise_cons.mp h with ⟨ha, ht⟩
    cases k with
    | zero => simp
    | succ k =>
      by_cases hpa : p a
      · simp [List.filter_cons, hpa, ih k ht]
      · have hnone : ∀ y ∈ t, p y = false := by
          intro y hy
          cases hpy : p y with
          | false => rfl
          | true => exact absurd (hup a y (ha y hy) hpy) (by simp [hpa])
        have h1 : t.filter p = [] := by
          refine List.filter_eq_nil_iff.mpr ?_
          intro y hy
          simp [hnone y hy]
        have h2 : (t.take k).filter p = [] := by
          refine List.filter_eq_nil_iff.mpr ?_
          intro y hy
          simp [hnone y (List.take_subset k t hy)]
        simp [List.filter_cons, hpa, h1, h2]

/-! ## Claim theorems -/

/-- C6: under the blended ranking score
`similarity * (1 - 0.15) + freshness * 0.15` with
`freshness = 1 - min(age / 2592000, 1)`, a row with the more recent `updatedAt`
(hence the smaller age) and identical similarity never scores below the older
row, and at identical `updatedAt` a strictly higher cosine similarity always
scores strictly higher. -/
theorem C6_ranking_monotonicity :
    ∀ (now updatedNew updatedOld sim simHi simLo : Rat),
      (updatedOld ≤ updatedNew →
        blendedScore sim (now - updatedOld) ≤ blendedScore sim (now - updatedNew)) ∧
      (simLo < simHi →
        blendedScore simLo (now - updatedNew) < blendedScore simHi (now - updatedNew)) := by
  intro now u₁ u₂ s s₁ s₂
  constructor
  · intro h
    unfold blendedScore freshness FRESHNESS_WEIGHT
    rw [leastRat_eq_min, leastRat_eq_min]
    have hmin : min ((now - u₁) / 2592000) 1 ≤ min ((now - u₂) / 2592000) 1 := by
      gcongr
    linarith
  · intro h
    unfold blendedScore FRESHNESS_WEIGHT
    nlinarith

/-- C6 witness: a row updated a day later than another with the same similarity
scores at least as high, and higher similarity at the same age wins strictly. -/
theorem C6_ranking_monotonicity_witness :
    (blendedScore (1/2) ((0 : Rat) - (-86400)) ≤ blendedScore (1/2) ((0 : Rat) - 0)) ∧
    (blendedScore (1/3) ((0 : Rat) - 0) < blendedScore (1/2) ((0 : Rat) - 0)) :=
  ⟨(C6_ranking_monotonicity 0 0 (-86400) (1/2) (1/2) (1/3)).1 (by norm_num),
   (C6_ranking_monotonicity 0 0 (-86400) (1/2) (1/2) (1/3)).2 (by norm_num)⟩

/-- C10: when every whitespace-separated token of the query has length at most
2, the keyword fallback search discards all tokens (`filter(t => t.length > 2)`)
and returns the empty list for every database. -/
theorem C10_short_tokens_empty_result :
    ∀ (query userId : String) (options : Option SearchOptions) (db : Db),
      (∀ t ∈ (splitWsChars (lowerChars query)).map List.asString, t.length ≤ 2) →
      keywordSearch query userId options db = [] := by
  intro query userId options db h
  have hterms : searchTermsOf query = [] := by
    refine List.filter_eq_nil_iff.mpr ?_
    intro t ht
    have h2 := h t ht
    simp only [decide_eq_true_eq]
    omega
  simp [keywordSearch, hterms]

def c10Db : Db :=
  { companies := [⟨"c1", "ai labs", none, none, none, "alice", 0⟩],
    contacts := [], deals := [], tasks := [], notes := [], documentEmbeddings := [] }

/-- C10 witness: the query `"AI"` tokenizes to short tokens only and returns
nothing even against a database holding a company named "ai labs". -/
theorem C10_short_tokens_empty_result_witness :
    (∀ t ∈ (splitWsChars (lowerChars "AI")).map List.asString, t.length ≤ 2) ∧
    keywordSearch "AI" "alice" none c10Db = [] :=
  ⟨by decide, C10_short_tokens_empty_result "AI" "alice" none c10Db (by decide)⟩

/-- C2: when the action found for `actionId` has any status other than
`PROPOSED` (`CONFIRMED`, `EXECUTED`, `FAILED`, or `CANCELLED`), both
`confirmAction` and `cancelAction` throw and leave the whole application state
— action rows, threads, and business records — unchanged; the executor is never
invoked. -/
theorem C2_state_machine_one_way :
    ∀ (exec : ActionType → Json → String → Db → Except String Db)
      (session : Option String) (now : Int) (actionId : String)
      (st : AppState) (action : ActionRec),
      st.actions.find? (fun a => a.id == actionId) = some action →
      action.status ≠ ActionStatus.PROPOSED →
      ((confirmAction exec session now actionId st).1.isThrown = true ∧
        (confirmAction exec session now actionId st).2 = st) ∧
      ((cancelAction session actionId st).1.isThrown = true ∧
        (cancelAction session actionId st).2 = st) := by
  intro exec session now aid st action hfind hstatus
  cases session with
  | none => exact ⟨⟨rfl, rfl⟩, ⟨rfl, rfl⟩⟩
  | some uid =>
    constructor
    · simp only [confirmAction, hfind]
      cases hth : st.threads.find? (fun t => t.id == action.threadId) with
      | none => exact ⟨rfl, rfl⟩
      | some thread =>
        dsimp only
        by_cases hown : thread.ownerUserId ≠ uid
        · rw [if_pos hown]
          exact ⟨rfl, rfl⟩
        · rw [if_neg hown, if_pos hstatus]
          exact ⟨rfl, rfl⟩
    · simp only [cancelAction, hfind]
      cases hth : st.threads.find? (fun t => t.id == action.threadId) with
      | none => exact ⟨rfl, rfl⟩
      | some thread =>
        dsimp only
        by_cases hown : thread.ownerUserId ≠ uid
        · rw [if_pos hown]
          exact ⟨rfl, rfl⟩
        · rw [if_neg hown, if_pos hstatus]
          exact ⟨rfl, rfl⟩

def c2State : AppState :=
  { db := { companies := [], contacts := [], deals := [], tasks := [], notes := [],
            documentEmbeddings := [] },
    threads := [⟨"t1", "alice"⟩],
    actions := [{ id := "a1", threadId := "t1", actionType := .CREATE_TASK,
                  payloadJson := .obj [], status := .EXECUTED, errorMsg := none,
                  executedAt := some 0 }] }

/-- C2 witness: confirming or cancelling an `EXECUTED` action is rejected with
no state change. -/
theorem C2_state_machine_one_way_witness :
    ((confirmAction (fun _ _ _ db => .ok db) (some "alice") 0 "a1" c2State).1.isThrown
        = true ∧
      (confirmAction (fun _ _ _ db => .ok db) (some "alice") 0 "a1" c2State).2
        = c2State) ∧
    ((cancelAction (some "alice") "a1" c2State).1.isThrown = true ∧
      (cancelAction (some "alice") "a1" c2State).2 = c2State) :=
  C2_state_machine_one_way (fun _ _ _ db => .ok db) (some "alice") 0 "a1" c2State
    { id := "a1", threadId := "t1", actionType := .CREATE_TASK,
      payloadJson := .obj [], status := .EXECUTED, errorMsg := none,
      executedAt := some 0 }
    rfl (by decide)

/-! ### Retry-loop lemmas (claim C8) -/

theorem retryAux_calls_le (p : Nat → EmbedOutcome) (m : Nat) :
    ∀ remaining attempt, (retryAux p m remaining attempt).calls ≤ remaining := by
  intro remaining
  induction remaining with
  | zero => intro attempt; simp [retryAux]
  | succ rem ih =>
    intro attempt
    cases hp : p attempt with
    | ret v =>
      cases v with
      | none => simpa [retryAux, hp] using Nat.succ_le_succ (ih (attempt + 1))
      | some w =>
        by_cases hw : 0 < w.length
        · simp [retryAux, hp, hw]
        · simpa [retryAux, hp, hw] using Nat.succ_le_succ (ih (attempt + 1))
    | exn msg =>
      by_cases hm : attempt < m <;>
        simpa [retryAux, hp, hm] using Nat.succ_le_succ (ih (attempt + 1))

theorem retryAux_delays_spec (p : Nat → EmbedOutcome) (m : Nat) :
    ∀ remaining attempt d, d ∈ (retryAux p m remaining attempt).delays →
      ∃ a, attempt ≤ a ∧ a < m ∧ outcomeThrows (p a) = true ∧ d = backoffDelay a := by
  intro remaining
  induction remaining with
  | zero => intro attempt d hd; simp [retryAux] at hd
  | succ rem ih =>
    intro attempt d hd
    have step : ∀ a', attempt + 1 ≤ a' → attempt ≤ a' := by omega
    cases hp : p attempt with
    | ret v =>
      cases v with
      | none =>
        simp only [retryAux, hp] at hd
        obtain ⟨a, h1, h2, h3, h4⟩ := ih (attempt + 1) d hd
        exact ⟨a, step a h1, h2, h3, h4⟩
      | some w =>
        by_cases hw : 0 < w.length
        · simp [retryAux, hp, hw] at hd
        · simp only [retryAux, hp, hw, if_neg] at hd
          obtain ⟨a, h1, h2, h3, h4⟩ := ih (attempt + 1) d hd
          exact ⟨a, step a h1, h2, h3, h4⟩
    | exn msg =>
      by_cases hm : attempt < m
      · simp only [retryAux, hp, if_pos hm, List.mem_cons] at hd
        rcases hd with rfl | hd
        · exact ⟨attempt, le_rfl, hm, by simp [outcomeThrows, hp], rfl⟩
        · obtain ⟨a, h1, h2, h3, h4⟩ := ih (attempt + 1) d hd
          exact ⟨a, step a h1, h2, h3, h4⟩
      · simp only [retryAux, hp, if_neg hm] at hd
        obtain ⟨a, h1, h2, h3, h4⟩ := ih (attempt + 1) d hd
        exact ⟨a, step a h1, h2, h3, h4⟩

theorem retryAux_embedding_none (p : Nat → EmbedOutcome) (m : Nat) :
    ∀ remaining attempt,
      (∀ a, attempt ≤ a → a < attempt + remaining → outcomeSucceeds (p a) = false) →
      (retryAux p m remaining attempt).embedding = none := by
  intro remaining
  induction remaining with
  | zero => intro attempt _; simp [retryAux]
  | succ rem ih =>
    intro attempt h
    have hnext : ∀ a, attempt + 1 ≤ a → a < attempt + 1 + rem →
        outcomeSucceeds (p a) = false := by
      intro a h1 h2
      exact h a (by omega) (by omega)
    cases hp : p attempt with
    | ret v =>
      cases v with
      | none => simpa [retryAux, hp] using ih (attempt + 1) hnext
      | some w =>
        by_cases hw : 0 < w.length
        · have := h attempt le_rfl (by omega)
          rw [hp] at this
          simp [outcomeSucceeds, hw] at this
        · simpa [retryAux, hp, hw] using ih (attempt + 1) hnext
    | exn msg =>
      by_cases hm : attempt < m <;>
        simpa [retryAux, hp, hm] using ih (attempt + 1) hnext

/-- C8 (amended): the retry wrapper makes at most 3 provider calls; every wait
it performs follows an attempt that raised an exception and equals
`min(1000 * 2^(attempt-1), 5000)` milliseconds (an attempt that merely returns
a null/empty embedding is retried immediately, with no wait); when every
attempt fails the result is a null embedding, and `upsertEmbedding` then
returns `false` rather than raising — as it also does when no
embedding-capable provider is configured. -/
theorem C8_retry_backoff_amended :
    ∀ (provider : String → Nat → EmbedOutcome) (text : String)
      (health : OllamaHealth) (content : EmbeddableContent),
      (generateEmbeddingWithRetry provider text 3).calls ≤ 3 ∧
      (∀ d ∈ (generateEmbeddingWithRetry provider text 3).delays,
        ∃ a, 1 ≤ a ∧ a < 3 ∧ outcomeThrows (provider text a) = true ∧
          d = min (1000 * 2 ^ (a - 1)) 5000) ∧
      ((∀ a, 1 ≤ a → a ≤ 3 → outcomeSucceeds (provider text a) = false) →
        (generateEmbeddingWithRetry provider text 3).embedding = none) ∧
      (health.hasEmbeddings = false → health.mode ≠ ProviderMode.openai →
        upsertEmbedding health provider content = false) ∧
      ((generateEmbeddingWithRetry provider (truncatedContentText content) 3).embedding
          = none →
        upsertEmbedding health provider content = false) := by
  intro provider text health content
  refine ⟨retryAux_calls_le (provider text) 3 3 1, ?_, ?_, ?_, ?_⟩
  · intro d hd
    obtain ⟨a, h1, h2, h3, h4⟩ := retryAux_delays_spec (provider text) 3 3 1 d hd
    refine ⟨a, h1, h2, h3, ?_⟩
    rw [h4, backoffDelay, leastRat_eq_min]
    push_cast
    ring_nf
  · intro h
    refine retryAux_embedding_none (provider text) 3 3 1 ?_
    intro a h1 h2
    exact h a h1 (by omega)
  · intro h1 h2
    simp [upsertEmbedding, h1, h2]
  · intro h
    by_cases hgate :
        (!health.hasEmbeddings && decide (health.mode ≠ ProviderMode.openai)) = true
    · simp only [upsertEmbedding]
      rw [if_pos hgate]
    · by_cases htrim : trimIsEmpty content.contentText = true
      · simp only [upsertEmbedding]
        rw [if_neg hgate, if_pos htrim]
      · simp only [upsertEmbedding]
        rw [if_neg hgate, if_neg htrim, h]

/-- C8 counterexample to the claim as stated: a provider that returns `null`
(without throwing) on every call produces 3 consecutive failed attempts with an
empty delay list — no wait of `min(1000 * 2^(attempt-1), 5000)` ever happens
between those failed attempts, because the backoff lives only in the `catch`
branch. -/
theorem C8_retry_backoff_counterexample :
    (generateEmbeddingWithRetry (fun _ _ => EmbedOutcome.ret none) "content" 3).calls
        = 3 ∧
    (generateEmbeddingWithRetry (fun _ _ => EmbedOutcome.ret none) "content" 3).delays
        = [] ∧
    (generateEmbeddingWithRetry (fun _ _ => EmbedOutcome.ret none) "content" 3).embedding
        = none :=
  ⟨rfl, rfl, rfl⟩

def c8Provider : String → Nat → EmbedOutcome := fun _ _ => .exn "connection refused"

def c8NoEmbHealth : OllamaHealth := ⟨false, .unavailableMode⟩

def c8Content : EmbeddableContent := ⟨.TASK, "t1", "Task: call John", "alice"⟩

/-- C8 witness: on an always-throwing provider the first recorded wait is 1
second and stems from a thrown attempt below the retry cap, an all-failing
provider yields a null embedding, and a configuration without embedding support
makes the upsert return `false`. -/
theorem C8_retry_backoff_amended_witness :
    (∃ a, 1 ≤ a ∧ a < 3 ∧ outcomeThrows (c8Provider "x" a) = true ∧
      (1000 : Rat) = min (1000 * 2 ^ (a - 1)) 5000) ∧
    (generateEmbeddingWithRetry c8Provider "x" 3).embedding = none ∧
    upsertEmbedding c8NoEmbHealth c8Provider c8Content = false := by
  refine ⟨?_, ?_, ?_⟩
  · have hd : (1000 : Rat) ∈ (generateEmbeddingWithRetry c8Provider "x" 3).delays := by
      have hdel : (generateEmbeddingWithRetry c8Provider "x" 3).delays
          = [backoffDelay 1, backoffDelay 2] := rfl
      have h1000 : backoffDelay 1 = (1000 : Rat) := by
        norm_num [backoffDelay, leastRat]
      rw [hdel, h1000]
      exact List.mem_cons_self _ _
    exact (C8_retry_backoff_amended c8Provider "x" c8NoEmbHealth c8Content).2.1 1000 hd
  · exact (C8_retry_backoff_amended c8Provider "x" c8NoEmbHealth c8Content).2.2.1
      (fun _ _ _ => rfl)
  · exact (C8_retry_backoff_amended c8Provider "x" c8NoEmbHealth c8Content).2.2.2.1
      rfl (by decide)

/-! ### Response-parser theorems (claim C3) -/

/-- A decoded model output of the action-proposal shape: the `type` literal, a
known `actionType`, an arbitrary JSON-object `payload`, and a `summary`. -/
def proposalJson (a : ActionType) (pf : List (String × Json)) (s : String) : Json :=
  .obj [("type", .str "action_proposal"), ("actionType", .str (actionTypeName a)),
        ("payload", .obj pf), ("summary", .str s)]

theorem actionTypeOfString_name (a : ActionType) :
    actionTypeOfString (actionTypeName a) = some a := by
  cases a <;> rfl

/-- C3 (amended): the response-parsing stage checks an action proposal only
against the structural schema — the `payload` merely has to be a JSON object —
so a syntactically valid proposal whose payload fails the type-specific
validation of its `actionType` is still returned as an `ActionProposal` (not
treated as plain text, and without raising), and the chat route persists it as
a `PROPOSED` action; the type-specific payload validation is not consulted at
this stage. -/
theorem C3_invalid_payload_still_parses :
    ∀ (F : ZodFormats) (a : ActionType) (pf : List (String × Json)) (s : String),
      1 ≤ s.length →
      validatePayload F a (Json.obj pf) = false →
      parseAssistantResponseDecoded (some (proposalJson a pf s)) =
        some (LLMResponse.proposal
          { actionType := a, payload := Json.obj pf, summary := s,
            confirmationMessage := none }) ∧
      chatPersistsProposal (some (proposalJson a pf s)) = some (a, Json.obj pf) := by
  intro F a pf s hs _hinvalid
  have hparse : parseActionProposal (proposalJson a pf s) =
      some { actionType := a, payload := Json.obj pf, summary := s,
             confirmationMessage := none } := by
    simp [parseActionProposal, proposalJson, Json.getField, List.find?,
      actionTypeOfString_name, hs]
  constructor
  · simp [parseAssistantResponseDecoded, llmResponseParse, hparse]
  · simp [chatPersistsProposal, parseAssistantResponseDecoded, llmResponseParse, hparse]

/-- A concrete instantiation of the external zod format refinements. -/
def anyFormats : ZodFormats := ⟨fun _ => true, fun _ => true, fun _ => true⟩

/-- C3 counterexample to the claim as stated: the proposal
`{type: "action_proposal", actionType: "CREATE_NOTE", payload: {}, summary:
"add a note"}` has a payload that fails `createNotePayloadSchema` (no `body`,
`relatedType`, `relatedId`), yet the parsing stage produces an
`ActionProposal` — not plain text — and the chat route persists it. -/
theorem C3_invalid_payload_still_parses_counterexample :
    validatePayload anyFormats ActionType.CREATE_NOTE (Json.obj []) = false ∧
    parseAssistantResponseDecoded
        (some (proposalJson ActionType.CREATE_NOTE [] "add a note")) =
      some (LLMResponse.proposal
        { actionType := .CREATE_NOTE, payload := Json.obj [],
          summary := "add a note", confirmationMessage := none }) ∧
    chatPersistsProposal (some (proposalJson ActionType.CREATE_NOTE [] "add a note")) =
      some (ActionType.CREATE_NOTE, Json.obj []) :=
  ⟨rfl, rfl, rfl⟩

/-- C3 witness: the amended theorem applied at the `CREATE_NOTE`/empty-payload
input. -/
theorem C3_invalid_payload_still_parses_witness :
    parseAssistantResponseDecoded
        (some (proposalJson ActionType.CREATE_NOTE [] "add a note")) =
      some (LLMResponse.proposal
        { actionType := .CREATE_NOTE, payload := Json.obj [],
          summary := "add a note", confirmationMessage := none }) ∧
    chatPersistsProposal (some (proposalJson ActionType.CREATE_NOTE [] "add a note")) =
      some (ActionType.CREATE_NOTE, Json.obj []) :=
  C3_invalid_payload_still_parses anyFormats ActionType.CREATE_NOTE [] "add a note"
    (by decide) rfl

/-! ### Two-phase check-then-write theorems (claim C9) -/

def c9Db : Db :=
  { companies := [], contacts := [],
    deals := [⟨"d1", "Enterprise deal", none, .LEAD, none, none, none, "alice", 0⟩],
    tasks := [⟨"t1", "Call John", none, .OPEN, .NONE, none, "alice", 0⟩],
    notes := [], documentEmbeddings := [] }

/-- An interleaved external writer that reassigns ownership of every deal and
task to `"bob"` between the two database operations. -/
def c9OwnerSwap (db : Db) : Db :=
  { db with
    deals := db.deals.map (fun d => { d with ownerUserId := "bob" }),
    tasks := db.tasks.map (fun t => { t with ownerUserId := "bob" }) }

/-- C9: the source's ownership check and write are two separate operations and
the write is keyed by the record id alone, so with a state change interleaved
between them, `"alice"`'s confirmed action mutates a deal (and deletes a task)
that at write time belongs to `"bob"`; the spec-mandated single conditional
mutation keyed by id and owner rejects the same interleaving. -/
theorem C9_check_then_write_not_atomic :
    executeUpdateDealStageInterleaved c9OwnerSwap ⟨"d1", .WON⟩ "alice" c9Db =
      .ok { companies := [], contacts := [],
            deals := [⟨"d1", "Enterprise deal", none, .WON, none, none, none, "bob", 0⟩],
            tasks := [⟨"t1", "Call John", none, .OPEN, .NONE, none, "bob", 0⟩],
            notes := [], documentEmbeddings := [] } ∧
    executeDeleteTaskInterleaved c9OwnerSwap ⟨"t1"⟩ "alice" c9Db =
      .ok { companies := [], contacts := [],
            deals := [⟨"d1", "Enterprise deal", none, .LEAD, none, none, none, "bob", 0⟩],
            tasks := [], notes := [], documentEmbeddings := [] } ∧
    executeUpdateDealStageAtomic ⟨"d1", .WON⟩ "alice" (c9OwnerSwap c9Db) =
      .error "Deal not found or not owned by user" :=
  ⟨rfl, rfl, rfl⟩

/-- Support: the atomic variant never touches a row the requesting user does
not own — any row of the result not owned by the user was already in the input
database unchanged. -/
theorem executeUpdateDealStageAtomic_foreign_rows_unchanged :
    ∀ (p : UpdateDealStagePayload) (u : String) (db db' : Db),
      executeUpdateDealStageAtomic p u db = .ok db' →
      ∀ d' ∈ db'.deals, d'.ownerUserId ≠ u → d' ∈ db.deals := by
  intro p u db db' h d' hd' hown
  unfold executeUpdateDealStageAtomic at h
  by_cases hc : db.deals.any (fun d => d.id == p.dealId && d.ownerUserId == u) = true
  · rw [if_pos hc] at h
    injection h with h
    rw [← h] at hd'
    simp only [List.mem_map] at hd'
    obtain ⟨d, hd, heq⟩ := hd'
    by_cases hcond : (d.id == p.dealId && d.ownerUserId == u) = true
    · rw [if_pos hcond] at heq
      simp only [Bool.and_eq_true, beq_iff_eq] at hcond
      rw [← heq] at hown
      exact absurd hcond.2 hown
    · rw [if_neg hcond] at heq
      rw [← heq]
      exact hd
  · rw [if_neg hc] at h
    exact absurd h (by simp)

/-! ### Bulk-update total-rejection theorems (claim C7) -/

/-- When some id in the list has no matching record owned by `u`, the
owner-scoped `findMany` comes back strictly shorter than the id list. -/
theorem owned_filter_length_lt {α : Type} (records : List α)
    (getId getOwner : α → String) (ids : List String) (u bad : String)
    (hnodup : (records.map getId).Nodup) (hbad : bad ∈ ids)
    (hmiss : ∀ r ∈ records, ¬(getId r = bad ∧ getOwner r = u)) :
    (records.filter (fun r => ids.contains (getId r) && getOwner r == u)).length
      < ids.length := by
  classical
  set S := records.filter (fun r => ids.contains (getId r) && getOwner r == u) with hS
  have hsub : (S.map getId).Sublist (records.map getId) :=
    (List.filter_sublist _).map getId
  have hnodupS : (S.map getId).Nodup := List.Nodup.sublist hsub hnodup
  have hmem : ∀ x ∈ S.map getId, x ∈ ids.toFinset.erase bad := by
    intro x hx
    obtain ⟨r, hrS, rfl⟩ := List.mem_map.mp hx
    obtain ⟨hrrec, hcond⟩ := List.mem_filter.mp hrS
    simp only [Bool.and_eq_true, beq_iff_eq] at hcond
    obtain ⟨hin0, howner⟩ := hcond
    have hin : getId r ∈ ids := by simpa using hin0
    refine Finset.mem_erase.mpr ⟨?_, List.mem_toFinset.mpr hin⟩
    intro hxbad
    exact hmiss r hrrec ⟨hxbad, howner⟩
  have hcard : (S.map getId).toFinset.card ≤ (ids.toFinset.erase bad).card := by
    apply Finset.card_le_card
    intro x hx
    exact hmem x (List.mem_toFinset.mp hx)
  have hlen : S.length = (S.map getId).toFinset.card := by
    rw [List.toFinset_card_of_nodup hnodupS, List.length_map]
  have herase : (ids.toFinset.erase bad).card < ids.toFinset.card :=
    Finset.card_erase_lt_of_mem (List.mem_toFinset.mpr hbad)
  have hfin : ids.toFinset.card ≤ ids.length := ids.toFinset_card_le
  omega

/-- C7: for each bulk-update executor, when some id in the payload's list does
not refer to a record owned by the requesting user, the count precondition
fails and execution returns an error before any `updateMany` write — a total
rejection, never a partial apply. (The id-uniqueness hypothesis is the primary
key constraint of the store.) -/
theorem C7_bulk_updates_total_rejection :
    ∀ (db : Db) (u : String),
      (∀ (p : BulkUpdateDealsPayload) (bad : String),
        (db.deals.map Deal.id).Nodup → bad ∈ p.dealIds →
        (∀ d ∈ db.deals, ¬(d.id = bad ∧ d.ownerUserId = u)) →
        ∃ msg, executeBulkUpdateDeals p u db = .error msg) ∧
      (∀ (p : BulkUpdateTasksPayload) (bad : String),
        (db.tasks.map Task.id).Nodup → bad ∈ p.taskIds →
        (∀ t ∈ db.tasks, ¬(t.id = bad ∧ t.ownerUserId = u)) →
        ∃ msg, executeBulkUpdateTasks p u db = .error msg) ∧
      (∀ (p : BulkUpdateContactsPayload) (bad : String),
        (db.contacts.map Contact.id).Nodup → bad ∈ p.contactIds →
        (∀ c ∈ db.contacts, ¬(c.id = bad ∧ c.ownerUserId = u)) →
        ∃ msg, executeBulkUpdateContacts p u db = .error msg) := by
  intro db u
  refine ⟨?_, ?_, ?_⟩
  · intro p bad hnodup hbad hmiss
    have hlt := owned_filter_length_lt db.deals Deal.id Deal.ownerUserId
      p.dealIds u bad hnodup hbad hmiss
    refine ⟨"One or more deals not found or not owned by user", ?_⟩
    simp only [executeBulkUpdateDeals]
    rw [if_pos (by omega)]
  · intro p bad hnodup hbad hmiss
    have hlt := owned_filter_length_lt db.tasks Task.id Task.ownerUserId
      p.taskIds u bad hnodup hbad hmiss
    refine ⟨"One or more tasks not found or not owned by user", ?_⟩
    simp only [executeBulkUpdateTasks]
    rw [if_pos (by omega)]
  · intro p bad hnodup hbad hmiss
    have hlt := owned_filter_length_lt db.contacts Contact.id Contact.ownerUserId
      p.contactIds u bad hnodup hbad hmiss
    refine ⟨"One or more contacts not found or not owned by user", ?_⟩
    simp only [executeBulkUpdateContacts]
    rw [if_pos (by omega)]

def c7Db : Db :=
  { companies := [⟨"co1", "Acme", none, none, none, "alice", 0⟩],
    contacts := [⟨"c1", "John", "Smith", none, none, none, none, "alice", 0⟩],
    deals := [⟨"d1", "Deal one", none, .LEAD, none, none, none, "alice", 0⟩],
    tasks := [⟨"t1", "Call", none, .OPEN, .NONE, none, "alice", 0⟩],
    notes := [], documentEmbeddings := [] }

/-- C7 witness: each bulk update whose id list mixes an owned record with an
unknown id is rejected whole. -/
theorem C7_bulk_updates_total_rejection_witness :
    (∃ msg, executeBulkUpdateDeals ⟨["d1", "dX"], ⟨some .WON, none, none⟩⟩ "alice" c7Db
      = .error msg) ∧
    (∃ msg, executeBulkUpdateTasks ⟨["t1", "tX"], ⟨some .DONE, none⟩⟩ "alice" c7Db
      = .error msg) ∧
    (∃ msg, executeBulkUpdateContacts ⟨["c1", "cX"], ⟨none, none⟩⟩ "alice" c7Db
      = .error msg) :=
  ⟨(C7_bulk_updates_total_rejection c7Db "alice").1 ⟨["d1", "dX"], ⟨some .WON, none, none⟩⟩
      "dX" (by decide) (by decide) (by decide),
   (C7_bulk_updates_total_rejection c7Db "alice").2.1 ⟨["t1", "tX"], ⟨some .DONE, none⟩⟩
      "tX" (by decide) (by decide) (by decide),
   (C7_bulk_updates_total_rejection c7Db "alice").2.2 ⟨["c1", "cX"], ⟨none, none⟩⟩
      "cX" (by decide) (by decide) (by decide)⟩

/-! ### Conversation-window theorems (claim C4) -/

theorem strTake_length_le (s : String) (n : Nat) : (strTake s n).length ≤ n := by
  have hs : ∀ l : List Char, (List.asString l).length = l.length := fun l => rfl
  unfold strTake
  rw [hs]
  exact List.length_take_le n s.toList

theorem truncate500_length_le (s : String) :
    (if s.length > MAX_SUMMARY_LENGTH then strTake s (MAX_SUMMARY_LENGTH - 3) ++ "..."
      else s).length ≤ MAX_SUMMARY_LENGTH := by
  by_cases h : s.length > MAX_SUMMARY_LENGTH
  · rw [if_pos h, String.length_append]
    have h1 := strTake_length_le s (MAX_SUMMARY_LENGTH - 3)
    have h2 : ("..." : String).length = 3 := rfl
    rw [h2]
    unfold MAX_SUMMARY_LENGTH at h1 ⊢
    omega
  · rw [if_neg h]
    omega

theorem generateConversationSummary_length_le (now : Int)
    (msgs : List ConversationMessage) :
    (generateConversationSummary now msgs).length ≤ MAX_SUMMARY_LENGTH := by
  unfold generateConversationSummary
  exact truncate500_length_le _

/-- C4 (amended): a 14-message history is returned unmodified with no summary;
a 16-message history is also returned verbatim with no summary message — the
windowed 20-verbatim-plus-summary shape requires more than 20 messages; from 21
messages on, the result is one synthetic leading system summary message (whose
text is at most 500 characters) followed by exactly the 20 most recent
messages. -/
theorem C4_windowing_trigger_amended :
    ∀ (now : Int) (msgs : List ConversationMessage),
      (msgs.length = 14 →
        (manageConversationHistory now msgs).messages = msgs ∧
        (manageConversationHistory now msgs).summaryText = none) ∧
      (msgs.length = 16 →
        (manageConversationHistory now msgs).messages = msgs ∧
        (manageConversationHistory now msgs).summaryText = none) ∧
      (21 ≤ msgs.length →
        ∃ s, (manageConversationHistory now msgs).summaryText = some s ∧
          s.length ≤ 500 ∧
          (manageConversationHistory now msgs).messages =
            summaryMessage now s :: msgs.drop (msgs.length - 20) ∧
          (manageConversationHistory now msgs).messages.length = 21) := by
  intro now msgs
  refine ⟨?_, ?_, ?_⟩
  · intro h14
    have hs : ¬ (msgs.length ≥ SUMMARY_TRIGGER_MESSAGES) := by
      simp [SUMMARY_TRIGGER_MESSAGES, h14]
    constructor <;> simp [manageConversationHistory, hs]
  · intro h16
    have hs : msgs.length ≥ SUMMARY_TRIGGER_MESSAGES := by
      simp [SUMMARY_TRIGGER_MESSAGES, h16]
    have hdrop : msgs.length - MAX_ACTIVE_MESSAGES = 0 := by
      simp [MAX_ACTIVE_MESSAGES, h16]
    constructor <;>
      simp [manageConversationHistory, hs, hdrop]
  · intro h21
    have hs : msgs.length ≥ SUMMARY_TRIGGER_MESSAGES := by
      simp only [SUMMARY_TRIGGER_MESSAGES]
      omega
    have hlt : MAX_ACTIVE_MESSAGES < msgs.length := by
      simp only [MAX_ACTIVE_MESSAGES]
      omega
    have hlt20 : 20 < msgs.length := by omega
    refine ⟨generateConversationSummary now
        (msgs.take (msgs.length - MAX_ACTIVE_MESSAGES)), ?_, ?_, ?_, ?_⟩
    · simp [manageConversationHistory, hs, hlt, hlt20]
    · have := generateConversationSummary_length_le now
        (msgs.take (msgs.length - MAX_ACTIVE_MESSAGES))
      simpa [MAX_SUMMARY_LENGTH] using this
    · simp [manageConversationHistory, hs, hlt, hlt20, MAX_ACTIVE_MESSAGES]
    · have hintermediate :
          (manageConversationHistory now msgs).messages =
            summaryMessage now (generateConversationSummary now
              (msgs.take (msgs.length - MAX_ACTIVE_MESSAGES))) ::
              msgs.drop (msgs.length - MAX_ACTIVE_MESSAGES) := by
        simp [manageConversationHistory, hs, hlt, hlt20]
      rw [hintermediate]
      simp only [List.length_cons, List.length_drop, MAX_ACTIVE_MESSAGES]
      omega

/-- Sixteen synthetic thread messages. -/
def mkMsgs (n : Nat) : List ConversationMessage :=
  (List.range n).map (fun i => ⟨"m" ++ toString i, .USER, "hello", 0⟩)

/-- C4 counterexample to the claim as stated: a 16-message thread comes back
with its 16 messages verbatim and no summary — not as 20 verbatim messages
plus a synthetic leading summary message (`slice(0, -20)` of 16 messages is
empty, so no summary is generated). -/
theorem C4_windowing_trigger_counterexample :
    (manageConversationHistory 0 (mkMsgs 16)).messages = mkMsgs 16 ∧
    (manageConversationHistory 0 (mkMsgs 16)).messages.length = 16 ∧
    (manageConversationHistory 0 (mkMsgs 16)).summaryText = none :=
  ⟨rfl, rfl, rfl⟩

/-- C4 witness: the amended theorem applied at concrete 14-, 16- and 21-message
histories. -/
theorem C4_windowing_trigger_amended_witness :
    ((manageConversationHistory 0 (mkMsgs 14)).messages = mkMsgs 14 ∧
      (manageConversationHistory 0 (mkMsgs 14)).summaryText = none) ∧
    ((manageConversationHistory 0 (mkMsgs 16)).messages = mkMsgs 16 ∧
      (manageConversationHistory 0 (mkMsgs 16)).summaryText = none) ∧
    (∃ s, (manageConversationHistory 0 (mkMsgs 21)).summaryText = some s ∧
      s.length ≤ 500 ∧
      (manageConversationHistory 0 (mkMsgs 21)).messages =
        summaryMessage 0 s :: (mkMsgs 21).drop ((mkMsgs 21).length - 20) ∧
      (manageConversationHistory 0 (mkMsgs 21)).messages.length = 21) :=
  ⟨(C4_windowing_trigger_amended 0 (mkMsgs 14)).1 (by simp [mkMsgs]),
   (C4_windowing_trigger_amended 0 (mkMsgs 16)).2.1 (by simp [mkMsgs]),
   (C4_windowing_trigger_amended 0 (mkMsgs 21)).2.2 (by simp [mkMsgs])⟩

/-! ### Retrieval ownership theorems (claim C1) -/

/-- The underlying `document_embeddings` row of a semantic result is owned by
the requesting user. -/
def embRowOwnedBy (db : Db) (u : String) (r : RetrievalResult) : Prop :=
  ∃ e ∈ db.documentEmbeddings, e.ownerUserId = u ∧ e.sourceType = r.sourceType ∧
    e.sourceId = r.sourceId

/-- The source entity of a keyword result is owned by the requesting user. -/
def entityRecordOwnedBy (db : Db) (u : String) (r : RetrievalResult) : Prop :=
  match r.sourceType with
  | .COMPANY => ∃ c ∈ db.companies, c.id = r.sourceId ∧ c.ownerUserId = u
  | .CONTACT => ∃ c ∈ db.contacts, c.id = r.sourceId ∧ c.ownerUserId = u
  | .DEAL => ∃ d ∈ db.deals, d.id = r.sourceId ∧ d.ownerUserId = u
  | .TASK => ∃ t ∈ db.tasks, t.id = r.sourceId ∧ t.ownerUserId = u
  | .NOTE => ∃ n ∈ db.notes, n.id = r.sourceId ∧ n.ownerUserId = u

theorem mem_keyword_block {β : Type} {w : Bool} {l : List β} {q : β → Bool} {k : Nat}
    {f : β → RetrievalResult} {r : RetrievalResult}
    (hr : r ∈ (if w then ((l.filter q).take k).map f else [])) :
    ∃ x ∈ l, q x = true ∧ r = f x := by
  cases w with
  | false => simp at hr
  | true =>
    simp only [if_pos] at hr
    obtain ⟨x, hx, rfl⟩ := List.mem_map.mp hr
    obtain ⟨hmem, hq⟩ := List.mem_filter.mp (List.take_subset _ _ hx)
    exact ⟨x, hmem, hq, rfl⟩

theorem keywordSearch_owned {query userId : String} {options : Option SearchOptions}
    {db : Db} {r : RetrievalResult}
    (hr : r ∈ keywordSearch query userId options db) :
    entityRecordOwnedBy db userId r := by
  simp only [keywordSearch] at hr
  by_cases hterms : (searchTermsOf query).length = 0
  · rw [if_pos hterms] at hr
    simp at hr
  · rw [if_neg hterms] at hr
    have hr' := List.take_subset _ _ hr
    simp only [List.mem_append] at hr'
    rcases hr' with ((((h | h) | h) | h) | h) <;>
      obtain ⟨x, hx, hq, rfl⟩ := mem_keyword_block h <;>
      simp only [Bool.and_eq_true, beq_iff_eq] at hq <;>
      exact ⟨x, hx, rfl, hq.1⟩

theorem semanticCore_owned {dist : List Rat → List Rat → Rat} {qvec : List Rat}
    {now : Int} {userId : String} {options : Option SearchOptions} {db : Db}
    {r : RetrievalResult}
    (hr : r ∈ semanticCore dist qvec now userId options db) :
    embRowOwnedBy db userId r := by
  simp only [semanticCore] at hr
  obtain ⟨srow, hsrow, rfl⟩ := List.mem_map.mp hr
  have h1 : srow ∈ semanticSqlRows dist qvec now userId options db :=
    List.mem_of_mem_filter hsrow
  simp only [semanticSqlRows] at h1
  have h2 := mem_sortScoreDesc (List.take_subset _ _ h1)
  obtain ⟨e, he, rfl⟩ := List.mem_map.mp h2
  have he' : e ∈ db.documentEmbeddings ∧ e.ownerUserId = userId := by
    simp only [ownerScopedEmbeddedRows] at he
    by_cases hf : (filteredSourceTypes options).length > 0
    · rw [if_pos hf] at he
      have h3 := List.mem_filter.mp he
      simp only [Bool.and_eq_true, beq_iff_eq] at h3
      exact ⟨h3.1, h3.2.1.1⟩
    · rw [if_neg hf] at he
      have h3 := List.mem_filter.mp he
      simp only [Bool.and_eq_true, beq_iff_eq] at h3
      exact ⟨h3.1, h3.2.1⟩
  exact ⟨e, he'.1, he'.2, rfl, rfl⟩

/-- C1: every result of the keyword-fallback path comes from a source entity
owned by the requesting user, and every result of `semanticSearch` (both its
semantic-SQL path and its keyword fallback) comes from an embedding row or a
source entity owned by the requesting user — no row owned by another user is
ever returned. -/
theorem C1_retrieval_owner_isolation :
    ∀ (dist : List Rat → List Rat → Rat) (health : OllamaHealth)
      (queryEmbedding : Option (List Rat)) (now : Int) (query userId : String)
      (options : Option SearchOptions) (db : Db) (r : RetrievalResult),
      (r ∈ keywordSearch query userId options db → entityRecordOwnedBy db userId r) ∧
      (r ∈ semanticSearch dist health queryEmbedding now query userId options db →
        embRowOwnedBy db userId r ∨ entityRecordOwnedBy db userId r) := by
  intro dist health qemb now query userId options db r
  refine ⟨fun hr => keywordSearch_owned hr, fun hr => ?_⟩
  simp only [semanticSearch] at hr
  split at hr
  · exact Or.inr (keywordSearch_owned hr)
  · cases qemb with
    | none => exact Or.inr (keywordSearch_owned hr)
    | some qvec => exact Or.inl (semanticCore_owned hr)

def c1EmbRow : EmbeddingRow :=
  ⟨"e1", .COMPANY, "c1", "Company: Acme Corp", some [1], "alice", 0⟩

def c1Db : Db :=
  { companies := [⟨"c1", "Acme Corp", none, none, none, "alice", 0⟩],
    contacts := [], deals := [], tasks := [], notes := [],
    documentEmbeddings := [c1EmbRow] }

def c1Dist : List Rat → List Rat → Rat := fun _ _ => 0

def c1Health : OllamaHealth := ⟨true, .localMode⟩

def c1KwResult : RetrievalResult :=
  { id := "company-c1", sourceType := .COMPANY, sourceId := "c1",
    contentText := "Company: Acme Corp", similarity := 7 / 10,
    entity := some { id := "c1", type := .COMPANY, title := "Acme Corp",
                     subtitle := none, url := "/companies/c1" } }

/-- C1 witness: a keyword hit and a semantic hit against a seeded database are
both owned by the requesting user. -/
theorem C1_retrieval_owner_isolation_witness :
    entityRecordOwnedBy c1Db "alice" c1KwResult ∧
    (embRowOwnedBy c1Db "alice"
        (enrichResult c1Db "alice" (scoreRow c1Dist [1] 0 c1EmbRow)) ∨
      entityRecordOwnedBy c1Db "alice"
        (enrichResult c1Db "alice" (scoreRow c1Dist [1] 0 c1EmbRow))) := by
  constructor
  · refine (C1_retrieval_owner_isolation c1Dist c1Health (some [1]) 0 "acme" "alice"
      none c1Db c1KwResult).1 ?_
    rw [show keywordSearch "acme" "alice" none c1Db = [c1KwResult] from rfl]
    exact List.mem_cons_self _ _
  · refine (C1_retrieval_owner_isolation c1Dist c1Health (some [1]) 0 "acme" "alice"
      none c1Db (enrichResult c1Db "alice" (scoreRow c1Dist [1] 0 c1EmbRow))).2 ?_
    have hdispatch : semanticSearch c1Dist c1Health (some [1]) 0 "acme" "alice" none c1Db
        = semanticCore c1Dist [1] 0 "alice" none c1Db := rfl
    have hrows : semanticSqlRows c1Dist [1] 0 "alice" none c1Db
        = [scoreRow c1Dist [1] 0 c1EmbRow] := rfl
    have hsim : decide ((scoreRow c1Dist [1] 0 c1EmbRow).similarity
        < optMinSimilarity none) = false := by
      apply decide_eq_false
      norm_num [scoreRow, rowScore, blendedScore, freshness, leastRat,
        FRESHNESS_WEIGHT, c1Dist, c1EmbRow, optMinSimilarity]
    have hcore : semanticCore c1Dist [1] 0 "alice" none c1Db
        = [enrichResult c1Db "alice" (scoreRow c1Dist [1] 0 c1EmbRow)] := by
      simp only [semanticCore, hrows, List.filter_cons, hsim, Bool.not_false,
        List.filter_nil, List.map_cons, List.map_nil, if_pos]
    rw [hdispatch, hcore]
    exact List.mem_cons_self _ _

/-! ### Semantic ranking refinement (claim C5) -/

/-- Modelled from the spec's ranking contract, for comparison with
`semanticCore`: filter all owner-scoped embedded rows by blended score at least
`minSimilarity`, then keep the `topK` highest-scoring survivors, then enrich. -/
def semanticRankingSpec (dist : List Rat → List Rat → Rat) (qvec : List Rat)
    (now : Int) (userId : String) (options : Option SearchOptions) (db : Db) :
    List RetrievalResult :=
  let minSimilarity := optMinSimilarity options
  let survivors := ((ownerScopedEmbeddedRows userId options db).map
    (scoreRow dist qvec now)).filter (fun r => minSimilarity ≤ r.similarity)
  ((sortScoreDesc ScoredRow.similarity survivors).take (optTopK options)).map
    (enrichResult db userId)

/-- C5: the semantic path's result list — `ORDER BY score DESC LIMIT topK` in
SQL followed by the in-code `minSimilarity` post filter — equals the
specification's description: filter the owner-scoped scored rows by
`minSimilarity` first, then truncate to the `topK` highest-scoring survivors. -/
theorem C5_min_similarity_post_filter :
    ∀ (dist : List Rat → List Rat → Rat) (qvec : List Rat) (now : Int)
      (userId : String) (options : Option SearchOptions) (db : Db),
      semanticCore dist qvec now userId options db =
        semanticRankingSpec dist qvec now userId options db := by
  intro dist qvec now u o db
  simp only [semanticCore, semanticRankingSpec, semanticSqlRows]
  congr 1
  have hpred : ∀ x ∈ (sortScoreDesc ScoredRow.similarity
      ((ownerScopedEmbeddedRows u o db).map (scoreRow dist qvec now))).take (optTopK o),
      (!decide (x.similarity < optMinSimilarity o))
        = decide (optMinSimilarity o ≤ x.similarity) := by
    intro x _
    by_cases h : x.similarity < optMinSimilarity o
    · simp [h, not_le.mpr h]
    · simp [h, not_lt.mp h]
  rw [List.filter_congr hpred,
    ← filter_sortScoreDesc (fun r : ScoredRow => decide (optMinSimilarity o ≤ r.similarity))]
  exact sorted_take_filter (fun x : ScoredRow => decide (optMinSimilarity o ≤ x.similarity))
    (fun x y hxy hy => by
      simp only [decide_eq_true_eq] at hy ⊢
      exact le_trans hy hxy)
    _ (optTopK o) (sortedDesc_sortScoreDesc _)

end Crm
